import Mathlib

/-!
Verification of the SQL statement-building and argument-binding layer of the
csfw repository (package `dbr`, plus `csdb.Table.Select`).

Source files present in the repository slice are translated faithfully:
  * `storage/dbr/types_null_float64.go` — the nullable-float argument type
    (`NullFloat64`, `argNullFloat64s`, `ArgNullFloat64`);
  * `storage/csdb/table.go` — `Table.Select` (the shallow statement copy).

Parts of package `dbr` whose source is not in the slice (`select.go`,
`condition.go`, `argument.go`, `types_null_string.go`) are modelled from the
specification and from the package's own test files; each such definition
carries a doc comment starting `Modelled from the spec:`.

Go machine values are embedded as follows: `int64` as `Int`, `byte` as `Nat`,
Go strings that may carry invalid UTF-8 as byte lists (`List Nat`), and
`float64` payloads as an opaque carrier (`GoFloat := Int`) — no claim in this
development depends on floating-point arithmetic or on the decimal text
produced by `strconv.FormatFloat`, only on which positions render as `NULL`
versus as a value, so the payload is carried through uninterpreted.
-/

namespace Dbr

/-- Claims-relevant error taxonomy of the `corestoreio/errors` package: the
code only ever branches on the behavioural class of an error (NotValid,
Empty, ...), never on its message, so messages are not modelled. -/
inductive DbrError : Type where
  | notValid : DbrError
  | empty : DbrError
  | notFound : DbrError
deriving DecidableEq, Repr

/-- Result of a Go function that writes into a `queryWriter` and returns
`error`: either the new writer contents, a returned error, or a runtime
panic (for example an out-of-range slice index). -/
inductive WriteRes (α : Type) : Type where
  | ok : α → WriteRes α
  | err : DbrError → WriteRes α
  | panicked : WriteRes α
deriving DecidableEq, Repr

/-- Opaque carrier for Go `float64` payloads; claims never inspect float
arithmetic or formatting, only pass the payload through. -/
abbrev GoFloat := Int

/-- Rendering of a float payload (`strconv.FormatFloat(f, 'f', -1, 64)` in the
source); modelled as an injective decimal rendering of the opaque carrier. -/
def formatF64 (f : GoFloat) : String := toString f

/-- One element of the flat bound-values list (`[]interface{}` in Go). An
invalid nullable value contributes `IFace.null` (Go `nil`). -/
inductive IFace : Type where
  | i64 : Int → IFace
  | f64 : GoFloat → IFace
  | str : String → IFace
  | strB : List Nat → IFace
  | boolean : Bool → IFace
  | null : IFace
deriving DecidableEq, Repr

/-- SQL literal for NULL (`sqlStrNull` in the source). -/
def sqlStrNull : String := "NULL"

/-- Operator byte `In` = 'i' (source constant). -/
def OpIn : Nat := 105
/-- Operator byte `NotIn` = 'I' (source constant). -/
def OpNotIn : Nat := 73
/-- Operator byte for the zero value: renders as `=` (default equality). -/
def OpEqual : Nat := 0
/-- Operator byte `NotEqual`. -/
def OpNotEqual : Nat := 33
/-- Operator byte `Between`. -/
def OpBetween : Nat := 98
/-- Operator byte `NotBetween`. -/
def OpNotBetween : Nat := 66
/-- Operator byte `Like`. -/
def OpLike : Nat := 108
/-- Operator byte `NotLike`. -/
def OpNotLike : Nat := 76
/-- Operator byte `Less`. -/
def OpLess : Nat := 60
/-- Operator byte `Greater`. -/
def OpGreater : Nat := 62
/-- Operator byte `LessOrEqual`. -/
def OpLessOrEqual : Nat := 57351
/-- Operator byte `GreaterOrEqual`. -/
def OpGreaterOrEqual : Nat := 57352
/-- Operator byte `Null` (IS NULL). -/
def OpNull : Nat := 110
/-- Operator byte `NotNull` (IS NOT NULL). -/
def OpNotNull : Nat := 78

/-- Source helper `isNotIn`: true when the operator is neither `In` nor
`NotIn` (evidenced by `argNullFloat64s.len` together with its test: length
is the element count only for non-IN operators). -/
def isNotIn (o : Nat) : Bool := o ≠ OpIn && o ≠ OpNotIn

/-! ## NullFloat64 and argNullFloat64s — from `types_null_float64.go` -/

/-- Source `NullFloat64`: a nullable float64 (embedded `sql.NullFloat64`
fields `Float64`/`Valid`) plus the operator byte `opt`. -/
structure NullFloat64 : Type where
  Float64 : GoFloat
  Valid : Bool
  opt : Nat := 0
deriving DecidableEq, Repr

/-- Source `MakeNullFloat64(f, valid ...bool)`: the variadic tail is a list;
validity defaults to true unless exactly one boolean is supplied. -/
def MakeNullFloat64 (f : GoFloat) (valid : List Bool) : NullFloat64 :=
  let v := match valid with
    | [b] => b
    | _ => true
  { Float64 := f, Valid := v }

/-- Source `NullFloat64.toIFace`: appends the float value, or Go `nil` when
invalid, to the bound-values list. -/
def NullFloat64.toIFace (a : NullFloat64) (args : List IFace) : List IFace :=
  if a.Valid then args ++ [IFace.f64 a.Float64] else args ++ [IFace.null]

/-- Source `NullFloat64.writeTo`: writes the formatted float, or the literal
`NULL`, ignoring the position argument. The writer is a `bytes.Buffer`
(write operations cannot fail), so the returned error is always nil. -/
def NullFloat64.writeTo (a : NullFloat64) (w : String) (_pos : Int) : WriteRes String :=
  if a.Valid then WriteRes.ok (w ++ formatF64 a.Float64)
  else WriteRes.ok (w ++ sqlStrNull)

/-- Source `NullFloat64.len`: always 1. -/
def NullFloat64.len (_a : NullFloat64) : Nat := 1

/-- Source `NullFloat64.Operator`: functionally re-sets the operator byte. -/
def NullFloat64.Operator (a : NullFloat64) (o : Nat) : NullFloat64 :=
  { a with opt := o }

/-- Source `NullFloat64.operator`. -/
def NullFloat64.operator (a : NullFloat64) : Nat := a.opt

/-- Source `argNullFloat64s`: a sequence of nullable floats plus operator. -/
structure argNullFloat64s : Type where
  opt : Nat
  data : List NullFloat64
deriving DecidableEq, Repr

/-- Source `argNullFloat64s.operator`. -/
def argNullFloat64s.operator (a : argNullFloat64s) : Nat := a.opt

/-- Source `argNullFloat64s.toIFace`: appends, for every element in order,
the float value when valid and Go `nil` when invalid. -/
def argNullFloat64s.toIFace (a : argNullFloat64s) (args : List IFace) : List IFace :=
  a.data.foldl
    (fun acc s => if s.Valid then acc ++ [IFace.f64 s.Float64] else acc ++ [IFace.null])
    args

/-- Rendering of one element inside an IN list: the formatted value when
valid, the literal `NULL` when invalid (body of the loop in
`argNullFloat64s.writeTo`). -/
def renderNullFloat64 (s : NullFloat64) : String :=
  if s.Valid then formatF64 s.Float64 else sqlStrNull

/-- Writer loop of the IN branch of `argNullFloat64s.writeTo`: each element
is rendered and followed by a comma exactly when it is not the last (the
source guards the comma with `if i < len(a.data)-1`). -/
def commaSepMap {α : Type} (f : α → String) : List α → String
  | [] => ""
  | [x] => f x
  | x :: y :: rest => f x ++ "," ++ commaSepMap f (y :: rest)

/-- Source `argNullFloat64s.writeTo`. For operators other than IN/NOT IN it
indexes `a.data[pos]` with no bounds check (a Go panic when out of range)
and writes that single element. For IN/NOT IN it writes the whole data as a
parenthesized comma-separated literal list. The `bytes.Buffer` writer cannot
fail, so the error branches of the source are never taken. -/
def argNullFloat64s.writeTo (a : argNullFloat64s) (w : String) (pos : Int) : WriteRes String :=
  if a.operator ≠ OpIn ∧ a.operator ≠ OpNotIn then
    if h : 0 ≤ pos ∧ pos.toNat < a.data.length then
      let s := a.data.get ⟨pos.toNat, h.2⟩
      if s.Valid then WriteRes.ok (w ++ formatF64 s.Float64)
      else WriteRes.ok (w ++ sqlStrNull)
    else WriteRes.panicked
  else
    WriteRes.ok (w ++ "(" ++ commaSepMap renderNullFloat64 a.data ++ ")")

/-- Source `argNullFloat64s.len`: the element count for non-IN operators,
otherwise 1 (an IN list renders as a single parenthesized token). -/
def argNullFloat64s.len (a : argNullFloat64s) : Nat :=
  if isNotIn a.operator then a.data.length else 1

/-- Source `argNullFloat64s.Operator`. -/
def argNullFloat64s.Operator (a : argNullFloat64s) (o : Nat) : argNullFloat64s :=
  { a with opt := o }

/-! ## NullString and argNullStrings

The file `types_null_string.go` is not part of the repository slice (only its
test file is), so the string argument type is modelled from the spec and its
tests. Go strings may carry invalid UTF-8, which Lean's `String` cannot, so
they are embedded as byte lists. -/

/-- UTF-8 continuation byte check (`0x80..0xBF`). -/
def contB (b : Nat) : Bool := 0x80 ≤ b && b ≤ 0xBF

/-- Modelled from the spec: Go's `utf8.ValidString` over the bytes of a
string, following the standard UTF-8 acceptance ranges (rejecting stray
continuation bytes, overlong encodings, surrogates and values above
U+10FFFF). The spec requires "invalid UTF-8 byte sequence while rendering a
string value fails the whole compile with a validation error". -/
def validUTF8 : List Nat → Bool
  | [] => true
  | b :: rest =>
    if b ≤ 0x7F then validUTF8 rest
    else if 0xC2 ≤ b ∧ b ≤ 0xDF then
      match rest with
      | c1 :: r => contB c1 && validUTF8 r
      | [] => false
    else if b = 0xE0 then
      match rest with
      | c1 :: c2 :: r => (0xA0 ≤ c1 && c1 ≤ 0xBF) && contB c2 && validUTF8 r
      | _ => false
    else if (0xE1 ≤ b ∧ b ≤ 0xEC) ∨ b = 0xEE ∨ b = 0xEF then
      match rest with
      | c1 :: c2 :: r => contB c1 && contB c2 && validUTF8 r
      | _ => false
    else if b = 0xED then
      match rest with
      | c1 :: c2 :: r => (0x80 ≤ c1 && c1 ≤ 0x9F) && contB c2 && validUTF8 r
      | _ => false
    else if b = 0xF0 then
      match rest with
      | c1 :: c2 :: c3 :: r => (0x90 ≤ c1 && c1 ≤ 0xBF) && contB c2 && contB c3 && validUTF8 r
      | _ => false
    else if 0xF1 ≤ b ∧ b ≤ 0xF3 then
      match rest with
      | c1 :: c2 :: c3 :: r => contB c1 && contB c2 && contB c3 && validUTF8 r
      | _ => false
    else if b = 0xF4 then
      match rest with
      | c1 :: c2 :: c3 :: r => (0x80 ≤ c1 && c1 ≤ 0x8F) && contB c2 && contB c3 && validUTF8 r
      | _ => false
    else false

/-- Escape of one byte inside a single-quoted SQL string literal: quote,
double-quote and backslash get a leading backslash (behaviour evidenced by
the test expectations, e.g. `'1\'; DROP TABLE users-- 1'`). -/
def escByte (b : Nat) : List Nat :=
  if b = 0x27 ∨ b = 0x22 ∨ b = 0x5C then [0x5C, b] else [b]

/-- Modelled from the spec: the dialect's string escaping — the byte sequence
wrapped in single quotes with embedded quotes backslash-escaped. -/
def escapeBytes (bs : List Nat) : List Nat :=
  [0x27] ++ (bs.map escByte).flatten ++ [0x27]

/-- Byte rendering of the SQL literal `NULL`. -/
def sqlStrNullB : List Nat := [78, 85, 76, 76]

/-- Modelled from the spec: `NullString` — a nullable Go string (byte list)
with validity flag and operator byte, mirroring `NullFloat64`. -/
structure NullString : Type where
  Str : List Nat
  Valid : Bool
  opt : Nat := 0
deriving DecidableEq, Repr

/-- Modelled from the spec: `MakeNullString`, mirroring `MakeNullFloat64`. -/
def MakeNullString (s : List Nat) (valid : List Bool) : NullString :=
  let v := match valid with
    | [b] => b
    | _ => true
  { Str := s, Valid := v }

/-- Rendering of one nullable string value: the escaped quoted literal when
valid (a NotValid error if its bytes are not valid UTF-8), the literal
`NULL` when invalid. -/
def renderNullStrB (s : NullString) : Except DbrError (List Nat) :=
  if s.Valid then
    if validUTF8 s.Str then Except.ok (escapeBytes s.Str)
    else Except.error DbrError.notValid
  else Except.ok sqlStrNullB

/-- Modelled from the spec: `NullString.writeTo` — writes the escaped quoted
string (failing with NotValid on invalid UTF-8) or the literal `NULL`,
ignoring the position argument. -/
def NullString.writeTo (a : NullString) (w : List Nat) (_pos : Int) : WriteRes (List Nat) :=
  match renderNullStrB a with
  | Except.ok o => WriteRes.ok (w ++ o)
  | Except.error e => WriteRes.err e

/-- Modelled from the spec: `NullString.toIFace` — appends the raw string
bytes when valid (no UTF-8 check on this path, per the type's test), Go
`nil` when invalid. -/
def NullString.toIFace (a : NullString) (args : List IFace) : List IFace :=
  if a.Valid then args ++ [IFace.strB a.Str] else args ++ [IFace.null]

/-- Modelled from the spec: `NullString.len` — always 1. -/
def NullString.len (_a : NullString) : Nat := 1

/-- Modelled from the spec: `NullString.Operator`. -/
def NullString.Operator (a : NullString) (o : Nat) : NullString :=
  { a with opt := o }

/-- Modelled from the spec: `argNullStrings` — a sequence of nullable
strings plus operator, mirroring `argNullFloat64s`. -/
structure argNullStrings : Type where
  opt : Nat
  data : List NullString
deriving DecidableEq, Repr

/-- Per-element loop of the IN-list rendering: each element rendered in
order, stopping at the first invalid-UTF-8 element with its error. -/
def renderPieces : List NullString → Except DbrError (List (List Nat))
  | [] => Except.ok []
  | s :: rest =>
    match renderNullStrB s with
    | Except.error e => Except.error e
    | Except.ok p =>
      match renderPieces rest with
      | Except.error e => Except.error e
      | Except.ok ps => Except.ok (p :: ps)

/-- Rendering of a whole IN list of nullable strings: each element rendered
(escaped literal or `NULL`), the first invalid-UTF-8 element failing the
whole list, joined by commas inside parentheses. -/
def renderNullStrList (data : List NullString) : Except DbrError (List Nat) :=
  match renderPieces data with
  | Except.ok pieces => Except.ok ([0x28] ++ List.intercalate [0x2C] pieces ++ [0x29])
  | Except.error e => Except.error e

/-- Modelled from the spec: `argNullStrings.writeTo`, mirroring
`argNullFloat64s.writeTo` — position-indexed single-element rendering for
non-IN operators (panicking on an out-of-range index), a parenthesized
comma-joined literal list for IN/NOT IN, with NotValid on invalid UTF-8 on
both paths (evidenced by the test's "invalid UTF-8" sub-tests). -/
def argNullStrings.writeTo (a : argNullStrings) (w : List Nat) (pos : Int) : WriteRes (List Nat) :=
  if a.opt ≠ OpIn ∧ a.opt ≠ OpNotIn then
    if h : 0 ≤ pos ∧ pos.toNat < a.data.length then
      match renderNullStrB (a.data.get ⟨pos.toNat, h.2⟩) with
      | Except.ok o => WriteRes.ok (w ++ o)
      | Except.error e => WriteRes.err e
    else WriteRes.panicked
  else
    match renderNullStrList a.data with
    | Except.ok o => WriteRes.ok (w ++ o)
    | Except.error e => WriteRes.err e

/-- Modelled from the spec: `argNullStrings.toIFace` — one entry per element,
the raw bytes when valid, Go `nil` when invalid. -/
def argNullStrings.toIFace (a : argNullStrings) (args : List IFace) : List IFace :=
  a.data.foldl
    (fun acc s => if s.Valid then acc ++ [IFace.strB s.Str] else acc ++ [IFace.null])
    args

/-- Modelled from the spec: `argNullStrings.len`, mirroring
`argNullFloat64s.len` (evidenced by the test: 3 before an operator is set,
1 under NOT IN). -/
def argNullStrings.len (a : argNullStrings) : Nat :=
  if isNotIn a.opt then a.data.length else 1

/-- Modelled from the spec: `argNullStrings.Operator`. -/
def argNullStrings.Operator (a : argNullStrings) (o : Nat) : argNullStrings :=
  { a with opt := o }

/-! ## The Argument interface and its compile-level implementors

`argument.go` is not part of the repository slice; the `Argument` interface
is modelled as a closed sum over the implementors the claims and tests
exercise. The two nullable families above are included unchanged. -/

/-- Modelled from the spec: the `Argument` interface as a closed sum of its
implementors — integer, float and plain-string sequences (each an operator
byte plus data), the nullable scalar/sequence types, and the IS NULL /
IS NOT NULL markers. -/
inductive Argument : Type where
  | ints : Nat → List Int → Argument
  | floats : Nat → List GoFloat → Argument
  | strs : Nat → List String → Argument
  | nullF64 : NullFloat64 → Argument
  | nullF64s : argNullFloat64s → Argument
  | nullStr : NullString → Argument
  | nullStrs : argNullStrings → Argument
  | argNull : Argument
  | argNotNull : Argument
deriving DecidableEq, Repr

/-- Operator byte of an argument (`operator()` in the source interface). -/
def Argument.operator : Argument → Nat
  | .ints o _ => o
  | .floats o _ => o
  | .strs o _ => o
  | .nullF64 a => a.opt
  | .nullF64s a => a.opt
  | .nullStr a => a.opt
  | .nullStrs a => a.opt
  | .argNull => OpNull
  | .argNotNull => OpNotNull

/-- Functional operator update (`Operator(opt byte) Argument`): returns a
modified copy, never mutating shared state. -/
def Argument.Operator : Argument → Nat → Argument
  | .ints _ d, o => .ints o d
  | .floats _ d, o => .floats o d
  | .strs _ d, o => .strs o d
  | .nullF64 a, o => .nullF64 (a.Operator o)
  | .nullF64s a, o => .nullF64s (a.Operator o)
  | .nullStr a, o => .nullStr (a.Operator o)
  | .nullStrs a, o => .nullStrs (a.Operator o)
  | .argNull, _ => .argNull
  | .argNotNull, _ => .argNotNull

/-- Flattening of an argument into the bound-values list (`toIFace`). -/
def Argument.toIFace (arg : Argument) (args : List IFace) : List IFace :=
  match arg with
  | .ints _ d => args ++ d.map IFace.i64
  | .floats _ d => args ++ d.map IFace.f64
  | .strs _ d => args ++ d.map IFace.str
  | .nullF64 a => a.toIFace args
  | .nullF64s a => a.toIFace args
  | .nullStr a => a.toIFace args
  | .nullStrs a => a.toIFace args
  | .argNull => args
  | .argNotNull => args

/-- Placeholder-count contract `len()` of an argument: the element count
under a non-IN operator for sequences, 1 for IN/NOT IN (a single
parenthesized token) and for scalars, nothing for the null markers. -/
def Argument.len : Argument → Nat
  | .ints o d => if isNotIn o then d.length else 1
  | .floats o d => if isNotIn o then d.length else 1
  | .strs o d => if isNotIn o then d.length else 1
  | .nullF64 a => a.len
  | .nullF64s a => a.len
  | .nullStr a => a.len
  | .nullStrs a => a.len
  | .argNull => 0
  | .argNotNull => 0

/-- Source `ArgNullFloat64` (`types_null_float64.go`): with exactly one value
the scalar itself is returned; otherwise the sequence wrapper with the
zero-valued operator byte. -/
def ArgNullFloat64 (args : List NullFloat64) : Argument :=
  match args with
  | [a] => Argument.nullF64 a
  | _ => Argument.nullF64s { opt := 0, data := args }

/-- Modelled from the spec: `ArgNullString`, mirroring `ArgNullFloat64`. -/
def ArgNullString (args : List NullString) : Argument :=
  match args with
  | [a] => Argument.nullStr a
  | _ => Argument.nullStrs { opt := 0, data := args }

/-- Modelled from the spec: `ArgInt` — a sequence of ints with the default
(equality) operator; an empty value sequence is a valid explicit
"no values" argument. -/
def ArgInt (xs : List Int) : Argument := Argument.ints 0 xs

/-- Modelled from the spec: `ArgString`. -/
def ArgString (xs : List String) : Argument := Argument.strs 0 xs

/-- Modelled from the spec: `ArgFloat64`. -/
def ArgFloat64 (xs : List GoFloat) : Argument := Argument.floats 0 xs

/-! ## Condition fragments and the WHERE/HAVING clause compiler

`condition.go` is not part of the repository slice; the fragment model and
the clause compiler are modelled from the spec (§4.2) and the compile-level
expectations in `select_test.go`. -/

/-- Modelled from the spec: one condition node — a column name or raw SQL
string (or the parenthesis markers `(` / `)`), the bound arguments, and the
Or flag that changes the joining keyword before this condition. -/
structure WhereFragment : Type where
  condition : String
  args : List Argument
  isOr : Bool := false
deriving DecidableEq, Repr

/-- Constructor `Condition(col, args...)`. -/
def Condition (c : String) (args : List Argument) : WhereFragment :=
  { condition := c, args := args }

/-- Constructor `ParenthesisOpen()`: an explicit grouping marker. -/
def ParenthesisOpen : WhereFragment := { condition := "(", args := [] }

/-- Constructor `ParenthesisClose()`. -/
def ParenthesisClose : WhereFragment := { condition := ")", args := [] }

/-- Method `.Or()`: flags the condition to be joined with OR. -/
def WhereFragment.Or (f : WhereFragment) : WhereFragment := { f with isOr := true }

/-- Identifier test deciding column-mode versus raw-SQL rendering of a
condition string (letters, digits, underscore and dots only). -/
def isIdent (s : String) : Bool :=
  s ≠ "" && s.toList.all (fun c => c.isAlphanum || c = '_' || c = '.')

/-- Back-tick identifier quoting with dot splitting: `a.b` becomes
`` `a`.`b` `` (the Quoter of the spec's quoting convention). -/
def quoteIdent (s : String) : String :=
  "`" ++ String.intercalate "`.`" (s.splitOn ".") ++ "`"

/-- Identifier-with-alias quoting (`QuoteAs`): no alias leaves the bare
quoted name, an alias appends `` AS `alias` ``. -/
def quoteAs (name alias_ : String) : String :=
  if alias_ = "" then quoteIdent name else quoteIdent name ++ " AS " ++ quoteIdent alias_

/-- Latin-1 style decoding of rendered literal bytes into the compiled SQL
text; claims never inspect non-ASCII rendering of inlined literals, so each
byte maps to the code point of the same value. -/
def bytesToAscii (bs : List Nat) : String :=
  String.mk (bs.map fun b => Char.ofNat b)

/-- SQL fragment and bound values for a column condition, chosen by the
argument's operator byte (spec §4.1): placeholders for scalar and BETWEEN
operators, a single `?` for IN/NOT IN over driver-expanded sequences, an
inlined literal list for IN/NOT IN over nullable-string or nullable-float
sequences (which may fail with NotValid on invalid UTF-8), and no
placeholder at all for IS NULL / IS NOT NULL. -/
def renderOp (arg : Argument) : Except DbrError (String × List IFace) :=
  let o := arg.operator
  if o = OpNull then Except.ok (" IS NULL", [])
  else if o = OpNotNull then Except.ok (" IS NOT NULL", [])
  else if o = OpIn ∨ o = OpNotIn then
    let kw := if o = OpIn then " IN " else " NOT IN "
    match arg with
    | .nullStrs a =>
      match renderNullStrList a.data with
      | Except.ok bs => Except.ok (kw ++ bytesToAscii bs, [])
      | Except.error e => Except.error e
    | .nullF64s a =>
      Except.ok (kw ++ "(" ++ String.intercalate "," (a.data.map renderNullFloat64) ++ ")", [])
    | _ => Except.ok (kw ++ "?", arg.toIFace [])
  else if o = OpBetween then Except.ok (" BETWEEN ? AND ?", arg.toIFace [])
  else if o = OpNotBetween then Except.ok (" NOT BETWEEN ? AND ?", arg.toIFace [])
  else if o = OpLike then Except.ok (" LIKE ?", arg.toIFace [])
  else if o = OpNotLike then Except.ok (" NOT LIKE ?", arg.toIFace [])
  else if o = OpLess then Except.ok (" < ?", arg.toIFace [])
  else if o = OpGreater then Except.ok (" > ?", arg.toIFace [])
  else if o = OpLessOrEqual then Except.ok (" <= ?", arg.toIFace [])
  else if o = OpGreaterOrEqual then Except.ok (" >= ?", arg.toIFace [])
  else if o = OpNotEqual then Except.ok (" != ?", arg.toIFace [])
  else Except.ok (" = ?", arg.toIFace [])

/-- Rendering of a single (non-marker) condition into its per-condition
parenthesized text plus bound values: column mode (quoted identifier and
operator fragment) for a lone argument on an identifier condition string,
raw mode otherwise (the condition text verbatim, arguments flattened). -/
def renderFrag (f : WhereFragment) : Except DbrError (String × List IFace) :=
  match f.args with
  | [arg] =>
    if isIdent f.condition then
      match renderOp arg with
      | Except.ok (opStr, as) => Except.ok ("(" ++ quoteIdent f.condition ++ opStr ++ ")", as)
      | Except.error e => Except.error e
    else
      Except.ok ("(" ++ f.condition ++ ")", arg.toIFace [])
  | [] => Except.ok ("(" ++ f.condition ++ ")", [])
  | args => Except.ok ("(" ++ f.condition ++ ")", args.foldl (fun acc a => a.toIFace acc) [])

/-- Token alphabet of the clause compiler: the explicit grouping markers,
the two joining keywords, and a rendered per-condition unit. -/
inductive WTok : Type where
  | openP : WTok
  | closeP : WTok
  | kwAnd : WTok
  | kwOr : WTok
  | frag : String → WTok
deriving DecidableEq, Repr

/-- Text of one clause token. -/
def WTok.text : WTok → String
  | .openP => "("
  | .closeP => ")"
  | .kwAnd => " AND "
  | .kwOr => " OR "
  | .frag s => s

/-- Modelled from the spec: the WHERE/HAVING clause compiler as a left fold
over the condition sequence. The boolean accumulator records whether a
joining keyword is due: conditions are joined with AND by default, with OR
when the later condition carries the Or flag; an open marker is preceded by
AND when a condition was already emitted and resets the accumulator so that
the first condition of the group gets no keyword; a close marker sets it. -/
def whereToksGo : List WhereFragment → Bool → Except DbrError (List WTok × List IFace)
  | [], _ => Except.ok ([], [])
  | f :: rest, anyCond =>
    if f.condition = ")" then
      match whereToksGo rest true with
      | Except.ok (ts, as) => Except.ok (WTok.closeP :: ts, as)
      | Except.error e => Except.error e
    else if f.condition = "(" then
      match whereToksGo rest false with
      | Except.ok (ts, as) =>
        Except.ok ((if anyCond then [WTok.kwAnd, WTok.openP] else [WTok.openP]) ++ ts, as)
      | Except.error e => Except.error e
    else
      match renderFrag f with
      | Except.ok (s, fas) =>
        match whereToksGo rest true with
        | Except.ok (ts, as) =>
          let pre : List WTok :=
            if anyCond then [if f.isOr then WTok.kwOr else WTok.kwAnd, WTok.frag s]
            else [WTok.frag s]
          Except.ok (pre ++ ts, fas ++ as)
        | Except.error e => Except.error e
      | Except.error e => Except.error e

/-- Clause compiler entry point: the rendered clause text and its bound
values in left-to-right appearance order. -/
def renderWhere (fs : List WhereFragment) : Except DbrError (String × List IFace) :=
  match whereToksGo fs false with
  | Except.ok (ts, as) => Except.ok (String.join (ts.map WTok.text), as)
  | Except.error e => Except.error e

/-! ## Listeners and the Select statement

`select.go` and the event-listener file are not part of the repository
slice; the statement and its compile pipeline are modelled from the spec
(§4.3, §4.4) and `select_test.go`. Listener callbacks are modelled as a
closed action language covering what the spec says a listener may do:
append WHERE conditions, change ordering, or set the propagation-stop
flag. -/

/-- Event byte for the "before compile" event (`OnBeforeToSQL`). -/
def OnBeforeToSQL : Nat := 98

/-- Modelled from the spec: what a listener callback may do to the mutable
statement — append WHERE conditions, append (possibly descending) ORDER BY
terms, set the propagation-stop flag, or a sequence of these. -/
inductive LAction : Type where
  | appendWhere : List WhereFragment → LAction
  | appendOrderBy : String → LAction
  | appendOrderByDesc : String → LAction
  | stopPropagation : LAction
  | seq : LAction → LAction → LAction
deriving DecidableEq, Repr

/-- Modelled from the spec: a `Listen` registration — name, event type,
one-shot flag, and the callback. -/
structure Listen : Type where
  name : String
  eventType : Nat
  once : Bool := false
  action : LAction
deriving DecidableEq, Repr

/-- Modelled from the spec: the Select statement — column list, FROM source
(a table with alias, or a nested Select with alias), the WHERE and HAVING
condition sequences, grouping and ordering state, LIMIT/OFFSET, the
listener registry and the propagation-stop flag. -/
inductive Select : Type where
  | mk
    (columns : List String)
    (fromTable : String)
    (fromAlias : String)
    (fromSub : Option (Select × String))
    (whereFr : List WhereFragment)
    (groupBys : List String)
    (havingFr : List WhereFragment)
    (orderBys : List String)
    (limit : Option Nat)
    (offset : Option Nat)
    (listeners : List Listen)
    (propagationStopped : Bool)

/-- Column list of a statement. -/
def Select.columns : Select → List String
  | .mk c _ _ _ _ _ _ _ _ _ _ _ => c

/-- FROM table name. -/
def Select.fromTable : Select → String
  | .mk _ t _ _ _ _ _ _ _ _ _ _ => t

/-- FROM alias. -/
def Select.fromAlias : Select → String
  | .mk _ _ a _ _ _ _ _ _ _ _ _ => a

/-- Nested-select FROM source, when present. -/
def Select.fromSub : Select → Option (Select × String)
  | .mk _ _ _ s _ _ _ _ _ _ _ _ => s

/-- WHERE condition sequence. -/
def Select.whereFr : Select → List WhereFragment
  | .mk _ _ _ _ w _ _ _ _ _ _ _ => w

/-- GROUP BY terms. -/
def Select.groupBys : Select → List String
  | .mk _ _ _ _ _ g _ _ _ _ _ _ => g

/-- HAVING condition sequence. -/
def Select.havingFr : Select → List WhereFragment
  | .mk _ _ _ _ _ _ h _ _ _ _ _ => h

/-- ORDER BY terms. -/
def Select.orderBys : Select → List String
  | .mk _ _ _ _ _ _ _ o _ _ _ _ => o

/-- LIMIT count. -/
def Select.limit : Select → Option Nat
  | .mk _ _ _ _ _ _ _ _ l _ _ _ => l

/-- OFFSET count. -/
def Select.offset : Select → Option Nat
  | .mk _ _ _ _ _ _ _ _ _ o _ _ => o

/-- Registered listeners. -/
def Select.listeners : Select → List Listen
  | .mk _ _ _ _ _ _ _ _ _ _ ls _ => ls

/-- Propagation-stop flag, settable by listener callbacks. -/
def Select.propagationStopped : Select → Bool
  | .mk _ _ _ _ _ _ _ _ _ _ _ p => p

/-- Update of the WHERE sequence (used by listener actions). -/
def Select.withWhere (s : Select) (w : List WhereFragment) : Select :=
  match s with
  | .mk c t a su _ g h o l off ls p => .mk c t a su w g h o l off ls p

/-- Update of the ORDER BY terms. -/
def Select.withOrderBys (s : Select) (o : List String) : Select :=
  match s with
  | .mk c t a su w g h _ l off ls p => .mk c t a su w g h o l off ls p

/-- Update of the propagation-stop flag. -/
def Select.withStopped (s : Select) (p : Bool) : Select :=
  match s with
  | .mk c t a su w g h o l off ls _ => .mk c t a su w g h o l off ls p

/-- Update of the listener registry. -/
def Select.withListeners (s : Select) (ls : List Listen) : Select :=
  match s with
  | .mk c t a su w g h o l off _ p => .mk c t a su w g h o l off ls p

/-- Interpretation of a listener action on the mutable statement. -/
def applyAction : LAction → Select → Select
  | .appendWhere fs, s => s.withWhere (s.whereFr ++ fs)
  | .appendOrderBy c, s => s.withOrderBys (s.orderBys ++ [c])
  | .appendOrderByDesc c, s => s.withOrderBys (s.orderBys ++ [c ++ " DESC"])
  | .stopPropagation, s => s.withStopped true
  | .seq a b, s => applyAction b (applyAction a s)

/-- Modelled from the spec: the listener loop of one compile pass. Listeners
run in registration order; one whose event type is unset (zero) fails the
compile with an Empty error; once the statement's propagation-stop flag is
set, the remaining listeners of this pass do not fire. -/
def runListeners (et : Nat) : List Listen → Select → Except DbrError Select
  | [], s => Except.ok s
  | l :: rest, s =>
    if s.propagationStopped then Except.ok s
    else if l.eventType = 0 then Except.error DbrError.empty
    else if l.eventType = et then runListeners et rest (applyAction l.action s)
    else runListeners et rest s

/-- Modelled from the spec: event dispatch for one compile pass. The stop
flag suppresses listeners only within the pass that set it, not in future
passes, so each pass starts with the flag cleared. -/
def dispatch (et : Nat) (s : Select) : Except DbrError Select :=
  runListeners et s.listeners (s.withStopped false)

/-- Applies a list of listeners' actions in registration order (the
reference fold a completed pass amounts to). -/
def applyAll (ls : List Listen) (s : Select) : Select :=
  ls.foldl (fun t l => applyAction l.action t) s

/-- Rendering of the optional clause pieces after FROM: WHERE, GROUP BY,
HAVING, ORDER BY, LIMIT, OFFSET, in the fixed clause order, together with
the WHERE-then-HAVING bound values. -/
def renderTail (s : Select) : Except DbrError (String × List IFace) :=
  match (if s.whereFr.isEmpty then Except.ok ("", []) else renderWhere s.whereFr) with
  | Except.error e => Except.error e
  | Except.ok (ws, wargs) =>
    match (if s.havingFr.isEmpty then Except.ok ("", []) else renderWhere s.havingFr) with
    | Except.error e => Except.error e
    | Except.ok (hs, hargs) =>
      let wPart := if s.whereFr.isEmpty then "" else " WHERE " ++ ws
      let gPart := if s.groupBys.isEmpty then "" else " GROUP BY " ++ String.intercalate ", " s.groupBys
      let hPart := if s.havingFr.isEmpty then "" else " HAVING " ++ hs
      let oPart := if s.orderBys.isEmpty then "" else " ORDER BY " ++ String.intercalate ", " s.orderBys
      let lPart := match s.limit with
        | some n => " LIMIT " ++ toString n
        | none => ""
      let offPart := match s.offset with
        | some n => " OFFSET " ++ toString n
        | none => ""
      Except.ok (wPart ++ gPart ++ hPart ++ oPart ++ lPart ++ offPart, wargs ++ hargs)

/-- Modelled from the spec: compilation of the structured statement into SQL
text plus the flat bound-values list. A nested-select FROM source compiles
first, wrapped in parentheses with its alias, and its arguments are
flattened ahead of the outer statement's own (WHERE before HAVING). -/
def renderSelect : Select → Except DbrError (String × List IFace)
  | .mk c t a none w g h o l off ls p =>
    match renderTail (Select.mk c t a none w g h o l off ls p) with
    | Except.error e => Except.error e
    | Except.ok (tail, targs) =>
      Except.ok ("SELECT " ++ String.intercalate ", " c ++ " FROM "
        ++ quoteAs t a ++ tail, targs)
  | .mk c t a (some (sub, al)) w g h o l off ls p =>
    match renderSelect sub with
    | Except.error e => Except.error e
    | Except.ok (q, qargs) =>
      match renderTail (Select.mk c t a (some (sub, al)) w g h o l off ls p) with
      | Except.error e => Except.error e
      | Except.ok (tail, targs) =>
        Except.ok ("SELECT " ++ String.intercalate ", " c ++ " FROM ("
          ++ q ++ ") AS " ++ quoteIdent al ++ tail, qargs ++ targs)

/-- Modelled from the spec: `ToSQL` — one compile pass. The before-compile
event dispatches first (listeners may mutate the statement), then the
mutated statement renders; the mutated statement is the receiver's state
after the pass. A compile error returns no SQL text at all. -/
def toSQL (s : Select) : Except DbrError (String × List IFace × Select) :=
  match dispatch OnBeforeToSQL s with
  | Except.error e => Except.error e
  | Except.ok s2 =>
    match renderSelect s2 with
    | Except.error e => Except.error e
    | Except.ok (q, a) => Except.ok (q, a, s2)

/-- Plain statement constructor `NewSelect(columns...).From(table, alias)`
with everything else empty. -/
def NewSelectFrom (cols : List String) (table alias_ : String) : Select :=
  Select.mk cols table alias_ none [] [] [] [] none none [] false

/-- Statement constructor `NewSelectFromSub(sub, alias)`: a Select sourcing
FROM a nested Select. -/
def NewSelectFromSub (sub : Select) (alias_ : String) (cols : List String) : Select :=
  Select.mk cols "" "" (some (sub, alias_)) [] [] [] [] none none [] false

end Dbr

namespace Csdb

/-! ## Go slice semantics and `Table.Select` — from `storage/csdb/table.go`

`Table.Select` copies the cached statement by value (`*sb =
*t.selectAllCache`), which copies slice headers while sharing the backing
arrays. To express that aliasing, Go slices of strings are embedded
explicitly: a slice is a header (backing-array id, length, capacity) over a
memory of backing arrays, and `append` writes in place when spare capacity
exists, exactly as in Go. -/

/-- A Go slice header: backing-array id, length, capacity. -/
structure GoSlice : Type where
  hid : Nat
  len : Nat
  cap : Nat
deriving DecidableEq, Repr

/-- The memory of backing arrays: position `hid` holds that array; each
array's list length equals the slice capacity (unused cells hold ""). -/
structure Mem : Type where
  store : List (List String)
deriving DecidableEq, Repr

/-- Observable contents of a slice: the first `len` cells of its backing
array. -/
def Mem.read (m : Mem) (s : GoSlice) : List String :=
  (m.store.getD s.hid []).take s.len

/-- Go's append capacity growth when the backing array is full (doubling,
starting at 1). -/
def growCap (c : Nat) : Nat := if c = 0 then 1 else 2 * c

/-- Go `append(s, v)`: with spare capacity the value is written in place
into the shared backing array (visible to every other header over the same
array); otherwise a fresh larger array is allocated and copied. -/
def Mem.append (m : Mem) (s : GoSlice) (v : String) : Mem × GoSlice :=
  if s.len < s.cap then
    let arr := m.store.getD s.hid []
    ({ store := m.store.set s.hid (arr.set s.len v) }, { s with len := s.len + 1 })
  else
    let newCap := growCap s.cap
    let base := m.read s ++ [v]
    let arr := base ++ List.replicate (newCap - base.length) ""
    ({ store := m.store ++ [arr] }, { hid := m.store.length, len := s.len + 1, cap := newCap })

/-- Builds a fresh slice by successive appends of the given values (how a
Go helper that assembles a column list with `append` produces it). -/
def buildViaAppend (m : Mem) (xs : List String) : Mem × GoSlice :=
  xs.foldl (fun (p : Mem × GoSlice) v => p.1.append p.2 v) (m, ⟨m.store.length, 0, 0⟩)

/-- The slice-backed part of a cached `dbr.Select` statement that
`Table.Select` copies: its column list header. -/
structure SelectH : Type where
  Columns : GoSlice
deriving DecidableEq, Repr

/-- A `csdb.Table` with its internal `selectAllCache` statement. -/
structure Table : Type where
  Name : String
  selectAllCache : SelectH
deriving DecidableEq, Repr

/-- Alias-prefix quoting of one column (`main_table` prefix), text shape per
`dbr.Quoter.TableColumnAlias`. -/
def tableColumnAliasOne (alias_ c : String) : String :=
  "`" ++ alias_ ++ "`.`" ++ c ++ "`"

/-- Modelled from the spec: `dbr.Quoter.TableColumnAlias` (its source is not
in the repository slice) — assembles the alias-quoted column list as a
fresh slice built by successive appends, so the resulting backing array can
carry spare capacity. -/
def tableColumnAlias (m : Mem) (alias_ : String) (xs : List String) : Mem × GoSlice :=
  buildViaAppend m (xs.map (tableColumnAliasOne alias_))

/-- Source `Table.update` (the part the claim touches): rebuilds the
`selectAllCache` statement whose Columns slice is the alias-quoted column
list. -/
def Table.update (m : Mem) (name : String) (cols : List String) : Mem × Table :=
  let (m2, sl) := tableColumnAlias m "main_table" cols
  (m2, { Name := name, selectAllCache := { Columns := sl } })

/-- Source `Table.Select` (table.go:212-216): `*sb = *t.selectAllCache` — a
value copy of the cached statement, so the slice headers are copied and the
backing arrays stay shared (the source's own comment: "shallow copy, buggy,
copies slice header ... can panic"). -/
def Table.SelectStmt (t : Table) : SelectH :=
  t.selectAllCache

end Csdb

/-! # Helper lemmas -/

namespace Dbr

theorem intercalate_go_append (s : String) (as : List String) (acc₁ acc₂ : String) :
    String.intercalate.go (acc₁ ++ acc₂) s as = acc₁ ++ String.intercalate.go acc₂ s as := by
  induction as generalizing acc₂ with
  | nil => rfl
  | cons a as ih =>
    show String.intercalate.go (acc₁ ++ acc₂ ++ s ++ a) s as
        = acc₁ ++ String.intercalate.go (acc₂ ++ s ++ a) s as
    rw [String.append_assoc, String.append_assoc, ih, ← String.append_assoc]

theorem intercalate_cons_cons (s x y : String) (rest : List String) :
    String.intercalate s (x :: y :: rest) = x ++ s ++ String.intercalate s (y :: rest) := by
  exact intercalate_go_append s rest (x ++ s) y

theorem commaSepMap_eq_intercalate {α : Type} (f : α → String) (l : List α) :
    commaSepMap f l = String.intercalate "," (l.map f) := by
  induction l with
  | nil => rfl
  | cons x xs ih =>
    cases xs with
    | nil => rfl
    | cons y ys =>
      show f x ++ "," ++ commaSepMap f (y :: ys) = _
      rw [ih]
      simp only [List.map_cons]
      rw [intercalate_cons_cons]

/-- The element-wise reading of `argNullFloat64s.toIFace`: one bound value
per stored element, the float payload when valid and Go `nil` when not. -/
theorem argNullFloat64s_toIFace_map (o : Nat) (l : List NullFloat64) (init : List IFace) :
    (argNullFloat64s.mk o l).toIFace init
      = init ++ l.map (fun s => if s.Valid then IFace.f64 s.Float64 else IFace.null) := by
  show l.foldl _ init = _
  induction l generalizing init with
  | nil => simp
  | cons x xs ih =>
    by_cases hv : x.Valid <;> simp [List.foldl, hv, ih, List.append_assoc]

theorem propagationStopped_withStopped (s : Select) (b : Bool) :
    (s.withStopped b).propagationStopped = b := by
  cases s; rfl

theorem listeners_withStopped (s : Select) (b : Bool) :
    (s.withStopped b).listeners = s.listeners := by
  cases s; rfl

theorem listeners_withListeners (s : Select) (ls : List Listen) :
    (s.withListeners ls).listeners = ls := by
  cases s; rfl

theorem withStopped_withStopped (s : Select) (b c : Bool) :
    (s.withStopped b).withStopped c = s.withStopped c := by
  cases s; rfl

/-- A pass whose statement already carries the stop flag runs nothing. -/
theorem runListeners_stopped (et : Nat) (ls : List Listen) (t : Select)
    (h : t.propagationStopped = true) :
    runListeners et ls t = Except.ok t := by
  cases ls with
  | nil => rfl
  | cons l rest => rw [runListeners, if_pos h]

/-- Listeners whose actions keep the stop flag clear leave it clear after a
completed fold. -/
theorem applyAll_propagationStopped (pre : List Listen) (t : Select)
    (hkeep : ∀ l ∈ pre, ∀ u, (applyAction l.action u).propagationStopped = u.propagationStopped) :
    (applyAll pre t).propagationStopped = t.propagationStopped := by
  induction pre generalizing t with
  | nil => rfl
  | cons l rest ih =>
    show (applyAll rest (applyAction l.action t)).propagationStopped = _
    rw [ih _ (fun x hx => hkeep x (List.mem_cons_of_mem l hx)),
      hkeep l (List.mem_cons_self l rest) t]

/-- A run over a prefix of matching, flag-preserving listeners applies their
actions in registration order and continues with the remainder. -/
theorem runListeners_prefix (et : Nat) (het : et ≠ 0) (pre rest : List Listen) (s : Select)
    (hpre : ∀ l ∈ pre, l.eventType = et)
    (hkeep : ∀ l ∈ pre, ∀ u, (applyAction l.action u).propagationStopped = u.propagationStopped)
    (hs : s.propagationStopped = false) :
    runListeners et (pre ++ rest) s = runListeners et rest (applyAll pre s) := by
  induction pre generalizing s with
  | nil => rfl
  | cons l pre ih =>
    have hev : l.eventType = et := hpre l (List.mem_cons_self l pre)
    rw [List.cons_append, runListeners, if_neg (by rw [hs]; exact Bool.false_ne_true),
      if_neg (by rw [hev]; exact het), if_pos hev]
    have hs2 : (applyAction l.action s).propagationStopped = false := by
      rw [hkeep l (List.mem_cons_self l pre) s, hs]
    exact ih (applyAction l.action s) (fun x hx => hpre x (List.mem_cons_of_mem l hx))
      (fun x hx => hkeep x (List.mem_cons_of_mem l hx)) hs2

/-- Rendering ignores the propagation-stop flag (it only matters to
listener dispatch). -/
theorem renderSelect_withStopped (s : Select) (b : Bool) :
    renderSelect (s.withStopped b) = renderSelect s := by
  cases s with
  | mk c t a su w g h o l off ls p => cases su <;> rfl

/-- Dispatch over an empty listener registry only clears the pass-local
stop flag. -/
theorem dispatch_no_listeners (s : Select) (et : Nat) (hl : s.listeners = []) :
    dispatch et s = Except.ok (s.withStopped false) := by
  rw [dispatch, hl]
  rfl

/-- A listener-free compile is rendering alone: the resulting statement only
has its pass-local stop flag cleared. -/
theorem toSQL_no_listeners (s : Select) (hl : s.listeners = []) :
    toSQL s = match renderSelect s with
      | Except.error e => Except.error e
      | Except.ok p => Except.ok (p.1, p.2, s.withStopped false) := by
  rw [toSQL, dispatch_no_listeners s _ hl]
  show (match renderSelect (s.withStopped false) with
    | Except.error e => Except.error e
    | Except.ok (q, a) => Except.ok (q, a, s.withStopped false)) = _
  rw [renderSelect_withStopped]
  cases renderSelect s with
  | error e => rfl
  | ok p => cases p; rfl

/-- An identifier condition string is never a parenthesis marker. -/
theorem isIdent_ne_open (s : String) (h : isIdent s = true) : s ≠ "(" := by
  intro hc
  rw [hc] at h
  exact absurd h (by decide)

/-- An identifier condition string is never a close marker. -/
theorem isIdent_ne_close (s : String) (h : isIdent s = true) : s ≠ ")" := by
  intro hc
  rw [hc] at h
  exact absurd h (by decide)

/-- One non-marker condition step of the clause fold. -/
theorem whereToksGo_cons_cond (f : WhereFragment) (rest : List WhereFragment) (b : Bool)
    (h1 : f.condition ≠ "(") (h2 : f.condition ≠ ")") (sf : String) (af : List IFace)
    (hr : renderFrag f = Except.ok (sf, af)) :
    whereToksGo (f :: rest) b
      = match whereToksGo rest true with
        | Except.ok (ts, as) =>
          Except.ok ((if b then [if f.isOr then WTok.kwOr else WTok.kwAnd, WTok.frag sf]
            else [WTok.frag sf]) ++ ts, af ++ as)
        | Except.error e => Except.error e := by
  rw [whereToksGo, if_neg h2, if_neg h1, hr]

/-- One open-marker step of the clause fold. -/
theorem whereToksGo_cons_open (rest : List WhereFragment) (b : Bool) :
    whereToksGo (ParenthesisOpen :: rest) b
      = match whereToksGo rest false with
        | Except.ok (ts, as) =>
          Except.ok ((if b then [WTok.kwAnd, WTok.openP] else [WTok.openP]) ++ ts, as)
        | Except.error e => Except.error e := by
  rw [whereToksGo]
  rw [if_neg (show ¬(ParenthesisOpen.condition = ")") by decide),
    if_pos (show ParenthesisOpen.condition = "(" from rfl)]

/-- One close-marker step of the clause fold. -/
theorem whereToksGo_cons_close (rest : List WhereFragment) (b : Bool) :
    whereToksGo (ParenthesisClose :: rest) b
      = match whereToksGo rest true with
        | Except.ok (ts, as) => Except.ok (WTok.closeP :: ts, as)
        | Except.error e => Except.error e := by
  rw [whereToksGo]
  rw [if_pos (show ParenthesisClose.condition = ")" from rfl)]

/-- The IN branch of `argNullFloat64s.writeTo` as a closed form: the whole
data parenthesized, elements comma-joined. -/
theorem argNullFloat64s_writeTo_in (o : Nat) (l : List NullFloat64) (w : String) (pos : Int)
    (ho : o = OpIn ∨ o = OpNotIn) :
    (argNullFloat64s.mk o l).writeTo w pos
      = WriteRes.ok (w ++ "(" ++ String.intercalate "," (l.map renderNullFloat64) ++ ")") := by
  have hcond : ¬((argNullFloat64s.mk o l).operator ≠ OpIn ∧ (argNullFloat64s.mk o l).operator ≠ OpNotIn) := by
    rcases ho with h | h <;> simp [argNullFloat64s.operator, h, OpIn, OpNotIn]
  rw [argNullFloat64s.writeTo, if_neg hcond, commaSepMap_eq_intercalate]

end Dbr

/-! ## Reference forms for the clause compiler (used by claim C6) -/

namespace Dbr

/-- A plain integer-valued column condition: condition string, bound
integer, Or flag. -/
def mkIntCond (sp : String × Int × Bool) : WhereFragment :=
  ⟨sp.1, [Argument.ints 0 [sp.2.1]], sp.2.2⟩

/-- Per-condition rendering of `mkIntCond`: the parenthesized quoted column
with one placeholder in column mode, the raw text parenthesized
otherwise. -/
def fragStr (sp : String × Int × Bool) : String :=
  if isIdent sp.1 then "(" ++ quoteIdent sp.1 ++ " = ?" ++ ")" else "(" ++ sp.1 ++ ")"

/-- The joining keyword demanded by a condition's Or flag. -/
def kwFor (b : Bool) : WTok := if b then WTok.kwOr else WTok.kwAnd

/-- Reference rendering of a run of conditions: when a keyword is due
(`b = true`) every condition is preceded by exactly one keyword chosen by
its Or flag; otherwise the first condition opens bare and each later one
gets its keyword. -/
def seg : List (String × Int × Bool) → Bool → List WTok
  | [], _ => []
  | x :: rest, b =>
    (if b then [kwFor x.2.2, WTok.frag (fragStr x)] else [WTok.frag (fragStr x)])
      ++ seg rest true

theorem renderFrag_mkIntCond (sp : String × Int × Bool) :
    renderFrag (mkIntCond sp) = Except.ok (fragStr sp, [IFace.i64 sp.2.1]) := by
  have hstep : renderFrag (mkIntCond sp)
      = if isIdent sp.1 = true then
          (match renderOp (Argument.ints 0 [sp.2.1]) with
            | Except.ok (opStr, as) => Except.ok ("(" ++ quoteIdent sp.1 ++ opStr ++ ")", as)
            | Except.error e => Except.error e)
        else Except.ok ("(" ++ sp.1 ++ ")", (Argument.ints 0 [sp.2.1]).toIFace []) := rfl
  have hop : renderOp (Argument.ints 0 [sp.2.1]) = Except.ok (" = ?", [IFace.i64 sp.2.1]) := by
    with_unfolding_all rfl
  rw [hstep, hop, fragStr]
  by_cases h : isIdent sp.1 = true
  · rw [if_pos h, if_pos h]
  · rw [if_neg h, if_neg h]
    with_unfolding_all rfl

/-- A run of plain conditions folds to its reference rendering followed by
the rest of the sequence, with the bound values in order. -/
theorem whereToksGo_conds (l : List (String × Int × Bool)) (rest : List WhereFragment) (b : Bool)
    (hm : ∀ sp ∈ l, sp.1 ≠ "(" ∧ sp.1 ≠ ")") :
    whereToksGo (l.map mkIntCond ++ rest) b
      = match whereToksGo rest (b || !l.isEmpty) with
        | Except.ok (ts, as) =>
          Except.ok (seg l b ++ ts, l.map (fun sp => IFace.i64 sp.2.1) ++ as)
        | Except.error e => Except.error e := by
  induction l generalizing b with
  | nil =>
    rw [List.map_nil, List.nil_append,
      show (b || !(List.isEmpty ([] : List (String × Int × Bool)))) = b by simp]
    cases hres : whereToksGo rest b with
    | error e => with_unfolding_all rfl
    | ok p =>
      obtain ⟨ts, as⟩ := p
      with_unfolding_all rfl
  | cons x xs ih =>
    obtain ⟨hx1, hx2⟩ := hm x (List.mem_cons_self x xs)
    rw [List.map_cons, List.cons_append,
      whereToksGo_cons_cond (mkIntCond x) _ b hx1 hx2 _ _ (renderFrag_mkIntCond x),
      ih true (fun sp hsp => hm sp (List.mem_cons_of_mem x hsp)),
      show (b || !(List.isEmpty (x :: xs))) = true by simp,
      show (true || !(List.isEmpty xs)) = true by simp]
    cases hres : whereToksGo rest true with
    | error e => with_unfolding_all rfl
    | ok p =>
      obtain ⟨ts, as⟩ := p
      show Except.ok _ = Except.ok _
      rw [seg, List.map_cons]
      simp [mkIntCond, kwFor, List.append_assoc]

/-- The reference rendering of plain conditions contains no parenthesis
markers. -/
theorem seg_count_marker (l : List (String × Int × Bool)) (b : Bool) (t : WTok)
    (ht : t = WTok.openP ∨ t = WTok.closeP) :
    (seg l b).count t = 0 := by
  induction l generalizing b with
  | nil => rfl
  | cons x xs ih =>
    rw [seg, List.count_append, ih true]
    cases b <;> cases hx : x.2.2 <;> rcases ht with rfl | rfl <;>
      simp [kwFor, List.count_cons]

/-- A valid nullable string with invalid UTF-8 bytes fails to render. -/
theorem renderNullStrB_invalid (s : NullString) (hv : s.Valid = true)
    (hu : validUTF8 s.Str = false) :
    renderNullStrB s = Except.error DbrError.notValid := by
  rw [renderNullStrB, if_pos hv, if_neg (by rw [hu]; exact Bool.false_ne_true)]

/-- The only error a nullable-string rendering can produce is NotValid. -/
theorem renderNullStrB_error (s : NullString) (e : DbrError)
    (h : renderNullStrB s = Except.error e) : e = DbrError.notValid := by
  by_cases hv : s.Valid = true
  · by_cases hu : validUTF8 s.Str = true
    · rw [renderNullStrB, if_pos hv, if_pos hu] at h
      exact absurd h (fun hc => Except.noConfusion hc)
    · rw [renderNullStrB, if_pos hv, if_neg hu] at h
      injection h with h'
      exact h'.symm
  · rw [renderNullStrB, if_neg hv] at h
    exact absurd h (fun hc => Except.noConfusion hc)

/-- An IN list containing any valid element with invalid UTF-8 bytes fails
as a whole with NotValid. -/
theorem renderPieces_error (data : List NullString)
    (h : ∃ s ∈ data, s.Valid = true ∧ validUTF8 s.Str = false) :
    renderPieces data = Except.error DbrError.notValid := by
  induction data with
  | nil =>
    rcases h with ⟨s, hs, _⟩
    exact absurd hs (List.not_mem_nil s)
  | cons s0 rest ih =>
    rcases h with ⟨s, hs, hv, hu⟩
    rcases List.mem_cons.mp hs with rfl | hmem
    · rw [renderPieces, renderNullStrB_invalid s hv hu]
    · rw [renderPieces]
      cases hr0 : renderNullStrB s0 with
      | error e =>
        have he := renderNullStrB_error s0 e hr0
        subst he
        rfl
      | ok p =>
        rw [ih ⟨s, hmem, hv, hu⟩]

/-- The parenthesized IN-list rendering fails with NotValid when any valid
element carries invalid UTF-8 bytes. -/
theorem renderNullStrList_error (data : List NullString)
    (h : ∃ s ∈ data, s.Valid = true ∧ validUTF8 s.Str = false) :
    renderNullStrList data = Except.error DbrError.notValid := by
  rw [renderNullStrList, renderPieces_error data h]

/-- `argNullStrings.writeTo` under IN/NOT IN fails with NotValid when any
valid element carries invalid UTF-8 bytes. -/
theorem argNullStrings_writeTo_in_error (op : Nat) (data : List NullString)
    (w : List Nat) (pos : Int) (hop : op = OpIn ∨ op = OpNotIn)
    (h : ∃ s ∈ data, s.Valid = true ∧ validUTF8 s.Str = false) :
    (argNullStrings.mk op data).writeTo w pos = WriteRes.err DbrError.notValid := by
  have hcond : ¬((argNullStrings.mk op data).opt ≠ OpIn
      ∧ (argNullStrings.mk op data).opt ≠ OpNotIn) := by
    rcases hop with rfl | rfl <;> simp
  rw [argNullStrings.writeTo, if_neg hcond]
  show (match renderNullStrList data with
    | Except.ok o => WriteRes.ok (w ++ o)
    | Except.error e => WriteRes.err e) = _
  rw [renderNullStrList_error data h]

/-- A condition whose rendering fails aborts the whole clause fold with
that error. -/
theorem whereToksGo_cons_cond_error (f : WhereFragment) (rest : List WhereFragment) (b : Bool)
    (h1 : f.condition ≠ "(") (h2 : f.condition ≠ ")") (e : DbrError)
    (hr : renderFrag f = Except.error e) :
    whereToksGo (f :: rest) b = Except.error e := by
  rw [whereToksGo, if_neg h2, if_neg h1, hr]

/-- `renderOp` over a nullable-string IN list propagates the list rendering
failure. -/
theorem renderOp_nullStrs_in_error (data : List NullString)
    (h : ∃ s ∈ data, s.Valid = true ∧ validUTF8 s.Str = false) :
    renderOp (Argument.nullStrs ⟨OpIn, data⟩) = Except.error DbrError.notValid := by
  have hro : renderOp (Argument.nullStrs ⟨OpIn, data⟩)
      = (match renderNullStrList data with
          | Except.ok bs2 => Except.ok (" IN " ++ bytesToAscii bs2, [])
          | Except.error e => Except.error e) := rfl
  rw [hro, renderNullStrList_error data h]

end Dbr

/-! # Claim theorems -/

/-- C1 counterexample: for the IN argument over nullable floats
`[7 (valid), null, 9 (valid)]` the rendered list is `(7,NULL,9)` as the
claim says, but the flat bound-values list produced by `toIFace` is
`[7, nil, 9]` — the invalid entry appears as a Go `nil` bound value, so the
bound list is not `[7, 9]` as the claim requires ("only the valid values
appear as bound values"). The package's own string-argument test asserts
exactly this `nil` entry. -/
theorem claim_C1_counterexample :
    (Dbr.argNullFloat64s.mk Dbr.OpIn
        [⟨7, true, 0⟩, ⟨0, false, 0⟩, ⟨9, true, 0⟩]).writeTo "" 0
      = Dbr.WriteRes.ok "(7,NULL,9)"
    ∧ (Dbr.argNullFloat64s.mk Dbr.OpIn
        [⟨7, true, 0⟩, ⟨0, false, 0⟩, ⟨9, true, 0⟩]).toIFace []
      ≠ [Dbr.IFace.f64 7, Dbr.IFace.f64 9]
    ∧ Dbr.IFace.null
      ∈ (Dbr.argNullFloat64s.mk Dbr.OpIn
          [⟨7, true, 0⟩, ⟨0, false, 0⟩, ⟨9, true, 0⟩]).toIFace [] := by
  refine ⟨by decide, by decide, by decide⟩

/-- C1 (amended): for every IN/NOT IN argument over a sequence of nullable
values, compiling renders the literal `NULL` token inside the parenthesized
list for each invalid entry (valid entries render as literals alongside),
and the flat bound-values list receives exactly one entry per element — the
value for valid entries and Go `nil` for invalid entries (the `nil` entries
are included, not excluded). -/
theorem claim_C1_amended (o : Nat) (l : List Dbr.NullFloat64) (w : String) (pos : Int)
    (init : List Dbr.IFace) (ho : o = Dbr.OpIn ∨ o = Dbr.OpNotIn) :
    (Dbr.argNullFloat64s.mk o l).writeTo w pos
      = Dbr.WriteRes.ok (w ++ "(" ++ String.intercalate "," (l.map Dbr.renderNullFloat64) ++ ")")
    ∧ (∀ s ∈ l, s.Valid = false → Dbr.renderNullFloat64 s = "NULL")
    ∧ (Dbr.argNullFloat64s.mk o l).toIFace init
        = init ++ l.map (fun s => if s.Valid then Dbr.IFace.f64 s.Float64 else Dbr.IFace.null) := by
  refine ⟨Dbr.argNullFloat64s_writeTo_in o l w pos ho, ?_, Dbr.argNullFloat64s_toIFace_map o l init⟩
  intro s _ hs
  simp [Dbr.renderNullFloat64, hs, Dbr.sqlStrNull]

/-- C1 amended, witness at the concrete null-containing list. -/
theorem claim_C1_amended_witness :
    (Dbr.OpIn = Dbr.OpIn ∨ Dbr.OpIn = Dbr.OpNotIn)
    ∧ ((Dbr.argNullFloat64s.mk Dbr.OpIn [⟨7, true, 0⟩, ⟨0, false, 0⟩]).writeTo "" 0
        = Dbr.WriteRes.ok ("" ++ "(" ++ String.intercalate ","
            ([⟨7, true, 0⟩, ⟨0, false, 0⟩].map Dbr.renderNullFloat64) ++ ")")
      ∧ (∀ s ∈ ([⟨7, true, 0⟩, ⟨0, false, 0⟩] : List Dbr.NullFloat64),
          s.Valid = false → Dbr.renderNullFloat64 s = "NULL")
      ∧ (Dbr.argNullFloat64s.mk Dbr.OpIn [⟨7, true, 0⟩, ⟨0, false, 0⟩]).toIFace []
          = [] ++ [⟨7, true, 0⟩, ⟨0, false, 0⟩].map
              (fun s : Dbr.NullFloat64 =>
                if s.Valid then Dbr.IFace.f64 s.Float64 else Dbr.IFace.null)) :=
  ⟨Or.inl rfl, claim_C1_amended Dbr.OpIn [⟨7, true, 0⟩, ⟨0, false, 0⟩] "" 0 [] (Or.inl rfl)⟩

/-- C9: `ArgNullFloat64` with exactly one value returns the scalar
`NullFloat64` itself (not a one-element sequence wrapper); its length
contract is 1 under every operator; and it renders with bare scalar
rendering even under the IN operator — no parenthesized list — unlike a
sequence of two or more values, which wraps into the sequence type and
renders a parenthesized comma-joined list under IN. -/
theorem claim_C9_single_value_scalar (a : Dbr.NullFloat64) (op : Nat) (w : String) (pos : Int) :
    Dbr.ArgNullFloat64 [a] = Dbr.Argument.nullF64 a
    ∧ ((Dbr.ArgNullFloat64 [a]).Operator op).len = 1
    ∧ (a.Operator Dbr.OpIn).writeTo w pos = Dbr.WriteRes.ok (w ++ Dbr.renderNullFloat64 a)
    ∧ (∀ (b c : Dbr.NullFloat64) (tail : List Dbr.NullFloat64),
        Dbr.ArgNullFloat64 (b :: c :: tail)
          = Dbr.Argument.nullF64s { opt := 0, data := b :: c :: tail }
        ∧ (Dbr.argNullFloat64s.mk Dbr.OpIn (b :: c :: tail)).writeTo w pos
            = Dbr.WriteRes.ok (w ++ "(" ++ String.intercalate ","
                ((b :: c :: tail).map Dbr.renderNullFloat64) ++ ")")) := by
  refine ⟨rfl, rfl, ?_, ?_⟩
  · by_cases hv : a.Valid <;>
      simp [Dbr.NullFloat64.Operator, Dbr.NullFloat64.writeTo, Dbr.renderNullFloat64, hv]
  · intro b c tail
    exact ⟨rfl, Dbr.argNullFloat64s_writeTo_in _ _ w pos (Or.inl rfl)⟩

/-- C10: for a multi-value nullable-float argument whose operator is neither
IN nor NOT IN, `writeTo` indexes the stored values at the given position
without a bounds check, so a position at or past the element count (for
example on an argument constructed with zero values) panics rather than
returning an error; no input makes this function return an error at all
(its error branch only forwards writer failures, and the buffer writer
cannot fail). -/
theorem claim_C10_writeTo_out_of_range_panics (a : Dbr.argNullFloat64s) (w : String) (pos : Int)
    (hop : Dbr.isNotIn a.opt = true) (hpos : (a.data.length : Int) ≤ pos) :
    a.writeTo w pos = Dbr.WriteRes.panicked
    ∧ ∀ (b : Dbr.argNullFloat64s) (w2 : String) (p2 : Int) (e : Dbr.DbrError),
        b.writeTo w2 p2 ≠ Dbr.WriteRes.err e := by
  constructor
  · have hcond : a.operator ≠ Dbr.OpIn ∧ a.operator ≠ Dbr.OpNotIn := by
      simp only [Dbr.isNotIn, Bool.and_eq_true, decide_eq_true_eq, bne_iff_ne] at hop
      exact hop
    have hoob : ¬(0 ≤ pos ∧ pos.toNat < a.data.length) := by omega
    rw [Dbr.argNullFloat64s.writeTo, if_pos hcond, dif_neg hoob]
  · intro b w2 p2 e
    rw [Dbr.argNullFloat64s.writeTo]
    by_cases h1 : b.operator ≠ Dbr.OpIn ∧ b.operator ≠ Dbr.OpNotIn
    · rw [if_pos h1]
      by_cases h2 : 0 ≤ p2 ∧ p2.toNat < b.data.length
      · rw [dif_pos h2]
        show (if (b.data.get ⟨p2.toNat, h2.2⟩).Valid = true then _ else _) ≠ _
        split <;> (intro hc; exact Dbr.WriteRes.noConfusion hc)
      · rw [dif_neg h2]
        intro hcontra
        exact Dbr.WriteRes.noConfusion hcontra
    · rw [if_neg h1]
      intro hcontra
      exact Dbr.WriteRes.noConfusion hcontra

/-- C10 witness: the empty-constructed argument (`ArgNullFloat64()` with no
values, default equality operator) panics at position 0. -/
theorem claim_C10_witness :
    (Dbr.isNotIn (Dbr.argNullFloat64s.mk 0 []).opt = true
      ∧ (((Dbr.argNullFloat64s.mk 0 []).data.length : Int) ≤ 0))
    ∧ (Dbr.argNullFloat64s.mk 0 []).writeTo "" 0 = Dbr.WriteRes.panicked :=
  ⟨⟨by decide, by decide⟩,
    (claim_C10_writeTo_out_of_range_panics (Dbr.argNullFloat64s.mk 0 []) "" 0
      (by decide) (by decide)).1⟩

/-! C2 scenario: a table whose cached all-columns statement was built by
append (capacity 4, length 3), two statements obtained from `Table.Select`,
and one column appended to each. -/

/-- Initial empty slice memory for the C2 scenario. -/
def c2m0 : Csdb.Mem := { store := [] }

/-- The table of the C2 scenario, with columns a, b, c. -/
def c2t : Csdb.Table := (Csdb.Table.update c2m0 "t" ["a", "b", "c"]).2

/-- Memory after building the table's column cache. -/
def c2m1 : Csdb.Mem := (Csdb.Table.update c2m0 "t" ["a", "b", "c"]).1

/-- First statement produced by `Table.Select`. -/
def c2sb1 : Csdb.SelectH := c2t.SelectStmt

/-- Second (sibling) statement produced by `Table.Select`. -/
def c2sb2 : Csdb.SelectH := c2t.SelectStmt

/-- Memory and column slice after appending a column to the first
statement. -/
def c2p1 : Csdb.Mem × Csdb.GoSlice := c2m1.append c2sb1.Columns "x"

/-- Memory and column slice after then appending a column to the sibling
statement. -/
def c2p2 : Csdb.Mem × Csdb.GoSlice := c2p1.1.append c2sb2.Columns "y"

/-- C2: `Table.Select` copies the cached statement by value, sharing the
slice headers instead of deep-copying (first two conjuncts). Consequently
mutating one statement mutates its sibling: after appending "x" to the
first statement its column list ends in "x", but the sibling's subsequent
append of "y" overwrites the shared backing array and the first statement
now reads "y" — cross-statement mutation, where the claim (and the spec's
deep-copy-on-branch requirement) demand the sibling stay unchanged. The
source itself marks this line "shallow copy, buggy, copies slice header". -/
theorem claim_C2_shallow_copy_aliasing :
    c2sb1.Columns = c2t.selectAllCache.Columns
    ∧ c2sb2.Columns = c2sb1.Columns
    ∧ c2p1.1.read c2p1.2
        = ["`main_table`.`a`", "`main_table`.`b`", "`main_table`.`c`", "x"]
    ∧ c2p2.1.read c2p1.2
        = ["`main_table`.`a`", "`main_table`.`b`", "`main_table`.`c`", "y"] := by
  refine ⟨rfl, rfl, by decide, by decide⟩

/-- C3: a string value whose bytes are not valid UTF-8 fails rendering with
a validation (NotValid) error in every rendering mode — scalar rendering,
multi-value rendering at whatever position holds the value, and IN-list
rendering — and a compile whose WHERE condition carries such an IN list
aborts with the validation error, returning no SQL text at all. -/
theorem claim_C3_invalid_utf8_aborts (bs : List Nat) (hinv : Dbr.validUTF8 bs = false)
    (w : List Nat) (pos : Int) (op : Nat) (data : List Dbr.NullString) :
    (Dbr.NullString.mk bs true 0).writeTo w pos = Dbr.WriteRes.err Dbr.DbrError.notValid
    ∧ (0 ≤ pos → data.get? pos.toNat = some ⟨bs, true, 0⟩ →
        op ≠ Dbr.OpIn ∧ op ≠ Dbr.OpNotIn →
        (Dbr.argNullStrings.mk op data).writeTo w pos = Dbr.WriteRes.err Dbr.DbrError.notValid)
    ∧ ((⟨bs, true, 0⟩ : Dbr.NullString) ∈ data → (op = Dbr.OpIn ∨ op = Dbr.OpNotIn) →
        (Dbr.argNullStrings.mk op data).writeTo w pos = Dbr.WriteRes.err Dbr.DbrError.notValid)
    ∧ (∀ (cols : List String) (tbl al col : String), Dbr.isIdent col = true →
        (⟨bs, true, 0⟩ : Dbr.NullString) ∈ data →
        Dbr.toSQL (Dbr.Select.mk cols tbl al none
          [⟨col, [Dbr.Argument.nullStrs ⟨Dbr.OpIn, data⟩], false⟩] [] [] [] none none [] false)
          = Except.error Dbr.DbrError.notValid) := by
  refine ⟨?_, ?_, ?_, ?_⟩
  · rw [Dbr.NullString.writeTo, Dbr.renderNullStrB_invalid ⟨bs, true, 0⟩ rfl hinv]
  · intro hpos0 hget hop
    obtain ⟨hlt, helem⟩ := List.get?_eq_some.mp hget
    rw [Dbr.argNullStrings.writeTo, if_pos hop, dif_pos ⟨hpos0, hlt⟩, helem,
      Dbr.renderNullStrB_invalid ⟨bs, true, 0⟩ rfl hinv]
  · intro hmem hop
    exact Dbr.argNullStrings_writeTo_in_error op data w pos hop ⟨⟨bs, true, 0⟩, hmem, rfl, hinv⟩
  · intro cols tbl al col hcol hmem
    have hfr : Dbr.renderFrag ⟨col, [Dbr.Argument.nullStrs ⟨Dbr.OpIn, data⟩], false⟩
        = Except.error Dbr.DbrError.notValid := by
      have hstep : Dbr.renderFrag ⟨col, [Dbr.Argument.nullStrs ⟨Dbr.OpIn, data⟩], false⟩
          = if Dbr.isIdent col = true then
              (match Dbr.renderOp (Dbr.Argument.nullStrs ⟨Dbr.OpIn, data⟩) with
                | Except.ok (opStr, as) =>
                  Except.ok ("(" ++ Dbr.quoteIdent col ++ opStr ++ ")", as)
                | Except.error e => Except.error e)
            else Except.ok ("(" ++ col ++ ")",
              (Dbr.Argument.nullStrs ⟨Dbr.OpIn, data⟩).toIFace []) := rfl
      rw [hstep, if_pos hcol,
        Dbr.renderOp_nullStrs_in_error data ⟨⟨bs, true, 0⟩, hmem, rfl, hinv⟩]
    have hwt : Dbr.whereToksGo [⟨col, [Dbr.Argument.nullStrs ⟨Dbr.OpIn, data⟩], false⟩] false
        = Except.error Dbr.DbrError.notValid :=
      Dbr.whereToksGo_cons_cond_error _ [] false (Dbr.isIdent_ne_open col hcol)
        (Dbr.isIdent_ne_close col hcol) _ hfr
    have hrw : Dbr.renderWhere [⟨col, [Dbr.Argument.nullStrs ⟨Dbr.OpIn, data⟩], false⟩]
        = Except.error Dbr.DbrError.notValid := by
      rw [Dbr.renderWhere, hwt]
    have hshape : Dbr.renderTail (Dbr.Select.mk cols tbl al none
        [⟨col, [Dbr.Argument.nullStrs ⟨Dbr.OpIn, data⟩], false⟩] [] [] [] none none [] false)
        = (match Dbr.renderWhere [⟨col, [Dbr.Argument.nullStrs ⟨Dbr.OpIn, data⟩], false⟩] with
            | Except.error e => Except.error e
            | Except.ok (ws, wargs) =>
              Except.ok (" WHERE " ++ ws ++ "" ++ "" ++ "" ++ "" ++ "", wargs ++ [])) := rfl
    have htail : Dbr.renderTail (Dbr.Select.mk cols tbl al none
        [⟨col, [Dbr.Argument.nullStrs ⟨Dbr.OpIn, data⟩], false⟩] [] [] [] none none [] false)
        = Except.error Dbr.DbrError.notValid := by
      rw [hshape, hrw]
    rw [Dbr.toSQL_no_listeners (Dbr.Select.mk cols tbl al none
        [⟨col, [Dbr.Argument.nullStrs ⟨Dbr.OpIn, data⟩], false⟩] [] [] [] none none [] false) rfl,
      Dbr.renderSelect, htail]

/-- C3 witness: the test's invalid byte sequence `0x00 0xff` fails scalar
rendering, IN-list rendering, and aborts a whole compile. -/
theorem claim_C3_witness :
    Dbr.validUTF8 [0, 255] = false
    ∧ (Dbr.NullString.mk [0, 255] true 0).writeTo [] 0 = Dbr.WriteRes.err Dbr.DbrError.notValid
    ∧ (Dbr.argNullStrings.mk Dbr.OpIn [⟨[50], true, 0⟩, ⟨[0, 255], true, 0⟩]).writeTo [] (-1)
        = Dbr.WriteRes.err Dbr.DbrError.notValid
    ∧ Dbr.toSQL (Dbr.Select.mk ["a"] "b" "" none
        [⟨"a", [Dbr.Argument.nullStrs ⟨Dbr.OpIn, [⟨[50], true, 0⟩, ⟨[0, 255], true, 0⟩]⟩],
          false⟩] [] [] [] none none [] false)
        = Except.error Dbr.DbrError.notValid := by
  have h := claim_C3_invalid_utf8_aborts [0, 255] (by decide) [] (-1) Dbr.OpIn
    [⟨[50], true, 0⟩, ⟨[0, 255], true, 0⟩]
  have h0 := claim_C3_invalid_utf8_aborts [0, 255] (by decide) [] 0 Dbr.OpIn
    [⟨[50], true, 0⟩, ⟨[0, 255], true, 0⟩]
  exact ⟨by decide, h0.1, h.2.2.1 (by decide) (Or.inl rfl),
    h.2.2.2 ["a"] "b" "" "a" (by decide) (by decide)⟩

/-- C4: when the before-compile event fires, listeners run in registration
order; a listener that sets the propagation-stop flag during the pass
suppresses every listener registered after it in that pass (the dispatch
result applies exactly the prefix up to and including the stopper, in
order, and none of `post`); and the stop flag does not suppress listeners
in later compile passes of the same statement (dispatch is insensitive to
the flag's value at the start of a pass). -/
theorem claim_C4_stop_propagation (pre post : List Dbr.Listen) (stopper : Dbr.Listen)
    (s : Dbr.Select)
    (hpre : ∀ l ∈ pre, l.eventType = Dbr.OnBeforeToSQL)
    (hst : stopper.eventType = Dbr.OnBeforeToSQL)
    (hkeep : ∀ l ∈ pre, ∀ u,
      (Dbr.applyAction l.action u).propagationStopped = u.propagationStopped)
    (hstop : ∀ u, (Dbr.applyAction stopper.action u).propagationStopped = true) :
    Dbr.dispatch Dbr.OnBeforeToSQL (s.withListeners (pre ++ stopper :: post))
      = Except.ok (Dbr.applyAll (pre ++ [stopper])
          ((s.withListeners (pre ++ stopper :: post)).withStopped false))
    ∧ ∀ b, Dbr.dispatch Dbr.OnBeforeToSQL
            ((s.withListeners (pre ++ stopper :: post)).withStopped b)
        = Dbr.dispatch Dbr.OnBeforeToSQL (s.withListeners (pre ++ stopper :: post)) := by
  have het : Dbr.OnBeforeToSQL ≠ 0 := by decide
  constructor
  · set s0 := s.withListeners (pre ++ stopper :: post) with hs0
    set t0 := s0.withStopped false with ht0
    have ht0s : t0.propagationStopped = false := Dbr.propagationStopped_withStopped s0 false
    have h1 : Dbr.dispatch Dbr.OnBeforeToSQL s0
        = Dbr.runListeners Dbr.OnBeforeToSQL (pre ++ stopper :: post) t0 := by
      rw [Dbr.dispatch, hs0, Dbr.listeners_withListeners]
    rw [h1, Dbr.runListeners_prefix Dbr.OnBeforeToSQL het pre (stopper :: post) t0 hpre hkeep ht0s]
    have hmid : (Dbr.applyAll pre t0).propagationStopped = false := by
      rw [Dbr.applyAll_propagationStopped pre t0 hkeep, ht0s]
    rw [Dbr.runListeners, if_neg (by rw [hmid]; exact Bool.false_ne_true),
      if_neg (by rw [hst]; exact het), if_pos hst,
      Dbr.runListeners_stopped _ _ _ (hstop (Dbr.applyAll pre t0))]
    have happ : Dbr.applyAll (pre ++ [stopper]) t0
        = Dbr.applyAction stopper.action (Dbr.applyAll pre t0) := by
      rw [Dbr.applyAll, List.foldl_append]
      rfl
    rw [happ]
  · intro b
    rw [Dbr.dispatch, Dbr.dispatch, Dbr.listeners_withStopped, Dbr.withStopped_withStopped]

/-- C4 witness: three listeners mirroring the repository's test — the first
appends an ORDER BY term, the second appends one and stops propagation, the
third must never fire; and starting the pass with the flag already set
changes nothing. -/
theorem claim_C4_witness :
    Dbr.dispatch Dbr.OnBeforeToSQL
      ((Dbr.NewSelectFrom ["a", "b"] "tableA" "tA").withListeners
        [⟨"listener1", Dbr.OnBeforeToSQL, false, Dbr.LAction.appendOrderByDesc "col1"⟩,
         ⟨"listener2", Dbr.OnBeforeToSQL, false,
           Dbr.LAction.seq (Dbr.LAction.appendOrderByDesc "col2") Dbr.LAction.stopPropagation⟩,
         ⟨"listener3", Dbr.OnBeforeToSQL, false, Dbr.LAction.appendOrderByDesc "col3"⟩])
      = Except.ok (Dbr.applyAll
          [⟨"listener1", Dbr.OnBeforeToSQL, false, Dbr.LAction.appendOrderByDesc "col1"⟩,
           ⟨"listener2", Dbr.OnBeforeToSQL, false,
             Dbr.LAction.seq (Dbr.LAction.appendOrderByDesc "col2") Dbr.LAction.stopPropagation⟩]
          (((Dbr.NewSelectFrom ["a", "b"] "tableA" "tA").withListeners
            [⟨"listener1", Dbr.OnBeforeToSQL, false, Dbr.LAction.appendOrderByDesc "col1"⟩,
             ⟨"listener2", Dbr.OnBeforeToSQL, false,
               Dbr.LAction.seq (Dbr.LAction.appendOrderByDesc "col2") Dbr.LAction.stopPropagation⟩,
             ⟨"listener3", Dbr.OnBeforeToSQL, false, Dbr.LAction.appendOrderByDesc "col3"⟩]).withStopped
            false))
    ∧ Dbr.dispatch Dbr.OnBeforeToSQL
        (((Dbr.NewSelectFrom ["a", "b"] "tableA" "tA").withListeners
          [⟨"listener1", Dbr.OnBeforeToSQL, false, Dbr.LAction.appendOrderByDesc "col1"⟩,
           ⟨"listener2", Dbr.OnBeforeToSQL, false,
             Dbr.LAction.seq (Dbr.LAction.appendOrderByDesc "col2") Dbr.LAction.stopPropagation⟩,
           ⟨"listener3", Dbr.OnBeforeToSQL, false, Dbr.LAction.appendOrderByDesc "col3"⟩]).withStopped
          true)
      = Dbr.dispatch Dbr.OnBeforeToSQL
          ((Dbr.NewSelectFrom ["a", "b"] "tableA" "tA").withListeners
            [⟨"listener1", Dbr.OnBeforeToSQL, false, Dbr.LAction.appendOrderByDesc "col1"⟩,
             ⟨"listener2", Dbr.OnBeforeToSQL, false,
               Dbr.LAction.seq (Dbr.LAction.appendOrderByDesc "col2") Dbr.LAction.stopPropagation⟩,
             ⟨"listener3", Dbr.OnBeforeToSQL, false, Dbr.LAction.appendOrderByDesc "col3"⟩]) := by
  have h := claim_C4_stop_propagation
    [⟨"listener1", Dbr.OnBeforeToSQL, false, Dbr.LAction.appendOrderByDesc "col1"⟩]
    [⟨"listener3", Dbr.OnBeforeToSQL, false, Dbr.LAction.appendOrderByDesc "col3"⟩]
    ⟨"listener2", Dbr.OnBeforeToSQL, false,
      Dbr.LAction.seq (Dbr.LAction.appendOrderByDesc "col2") Dbr.LAction.stopPropagation⟩
    (Dbr.NewSelectFrom ["a", "b"] "tableA" "tA")
    (by intro l hl; simp only [List.mem_singleton] at hl; rw [hl])
    rfl
    (by
      intro l hl u
      simp only [List.mem_singleton] at hl
      rw [hl]
      cases u; rfl)
    (by
      intro u
      show (Dbr.applyAction Dbr.LAction.stopPropagation _).propagationStopped = true
      exact Dbr.propagationStopped_withStopped _ true)
  exact ⟨h.1, h.2 true⟩

/-- C8: with no registered listeners, compiling an unmodified statement a
second time yields the identical SQL string and the identical bound-values
list — the statement state a compile pass leaves behind recompiles to the
same output. -/
theorem claim_C8_recompile_identical (s : Dbr.Select) (q : String) (a : List Dbr.IFace)
    (s2 : Dbr.Select) (hl : s.listeners = [])
    (hc : Dbr.toSQL s = Except.ok (q, a, s2)) :
    Dbr.toSQL s2 = Except.ok (q, a, s2) := by
  rw [Dbr.toSQL_no_listeners s hl] at hc
  cases hr : Dbr.renderSelect s with
  | error e =>
    rw [hr] at hc
    exact absurd hc (fun h => Except.noConfusion h)
  | ok pair =>
    obtain ⟨q1, a1⟩ := pair
    rw [hr] at hc
    simp only [Except.ok.injEq, Prod.mk.injEq] at hc
    obtain ⟨hq, ha, hs2⟩ := hc
    subst hq
    subst ha
    subst hs2
    have hl2 : (s.withStopped false).listeners = [] := by
      rw [Dbr.listeners_withStopped, hl]
    rw [Dbr.toSQL_no_listeners _ hl2, Dbr.renderSelect_withStopped, hr,
      Dbr.withStopped_withStopped]

/-- C5: compiling a SELECT whose FROM source is a nested SELECT flattens the
inner statement's bound arguments ahead of all outer-only arguments, and
within the outer statement the WHERE arguments precede the HAVING
arguments, matching the left-to-right order of the rendered clauses (the
SQL text places the subselect, then WHERE, then HAVING). -/
theorem claim_C5_subselect_args_order (inner : Dbr.Select) (al : String) (cols : List String)
    (wf hf : List Dbr.WhereFragment) (g o : List String) (lim off : Option Nat)
    (qi : String) (ai : List Dbr.IFace) (ws hs : String) (wa ha : List Dbr.IFace)
    (hinner : Dbr.renderSelect inner = Except.ok (qi, ai))
    (hwne : wf ≠ []) (hw : Dbr.renderWhere wf = Except.ok (ws, wa))
    (hhne : hf ≠ []) (hh : Dbr.renderWhere hf = Except.ok (hs, ha)) :
    Dbr.toSQL (Dbr.Select.mk cols "" "" (some (inner, al)) wf g hf o lim off [] false)
      = Except.ok ("SELECT " ++ String.intercalate ", " cols ++ " FROM ("
          ++ qi ++ ") AS " ++ Dbr.quoteIdent al
          ++ (" WHERE " ++ ws
              ++ (if g.isEmpty then "" else " GROUP BY " ++ String.intercalate ", " g)
              ++ (" HAVING " ++ hs)
              ++ (if o.isEmpty then "" else " ORDER BY " ++ String.intercalate ", " o)
              ++ (match lim with | some n => " LIMIT " ++ toString n | none => "")
              ++ (match off with | some n => " OFFSET " ++ toString n | none => "")),
          ai ++ (wa ++ ha),
          Dbr.Select.mk cols "" "" (some (inner, al)) wf g hf o lim off [] false) := by
  have htail : Dbr.renderTail (Dbr.Select.mk cols "" "" (some (inner, al)) wf g hf o lim off [] false)
      = (match Dbr.renderWhere wf with
          | Except.error e => Except.error e
          | Except.ok (ws0, wargs) =>
            match Dbr.renderWhere hf with
            | Except.error e => Except.error e
            | Except.ok (hs0, hargs) =>
              Except.ok ((" WHERE " ++ ws0)
                ++ (if g.isEmpty then "" else " GROUP BY " ++ String.intercalate ", " g)
                ++ (" HAVING " ++ hs0)
                ++ (if o.isEmpty then "" else " ORDER BY " ++ String.intercalate ", " o)
                ++ (match lim with | some n => " LIMIT " ++ toString n | none => "")
                ++ (match off with | some n => " OFFSET " ++ toString n | none => ""),
                wargs ++ hargs)) := by
    cases wf with
    | nil => exact absurd rfl hwne
    | cons w0 wr =>
      cases hf with
      | nil => exact absurd rfl hhne
      | cons h0 hr => rfl
  rw [Dbr.toSQL_no_listeners (Dbr.Select.mk cols "" "" (some (inner, al)) wf g hf o lim off [] false)
    rfl, Dbr.renderSelect, hinner, htail, hw, hh]
  rfl

/-- Inner statement of the C5 witness, mirroring the repository's subselect
test: an IN list in WHERE and an argument-bearing HAVING. -/
def c5inner : Dbr.Select :=
  Dbr.Select.mk ["`t3`.`store_id`"] "sales_bestsellers_aggregated_daily" "t3" none
    [⟨"t3.store_id", [(Dbr.ArgInt [2, 3, 4]).Operator Dbr.OpIn], false⟩]
    ["`t3`.`store_id`"]
    [⟨"COUNT(*)>?", [Dbr.ArgInt [3]], false⟩]
    [] none none [] false

/-- C5 witness: the inner statement's arguments `[2,3,4,3]` (WHERE before
HAVING) come first, then the outer WHERE argument `7`, then the outer
HAVING argument `8`. -/
theorem claim_C5_witness :
    Dbr.renderSelect c5inner
      = Except.ok ("SELECT `t3`.`store_id` FROM `sales_bestsellers_aggregated_daily` AS `t3` WHERE (`t3`.`store_id` IN ?) GROUP BY `t3`.`store_id` HAVING (COUNT(*)>?)",
          [Dbr.IFace.i64 2, Dbr.IFace.i64 3, Dbr.IFace.i64 4, Dbr.IFace.i64 3])
    ∧ Dbr.toSQL (Dbr.Select.mk ["`t1`.`store_id`"] "" "" (some (c5inner, "t1"))
        [⟨"a", [Dbr.ArgInt [7]], false⟩] [] [⟨"b", [Dbr.ArgInt [8]], false⟩] [] none none [] false)
      = Except.ok ("SELECT " ++ String.intercalate ", " ["`t1`.`store_id`"] ++ " FROM ("
          ++ "SELECT `t3`.`store_id` FROM `sales_bestsellers_aggregated_daily` AS `t3` WHERE (`t3`.`store_id` IN ?) GROUP BY `t3`.`store_id` HAVING (COUNT(*)>?)"
          ++ ") AS " ++ Dbr.quoteIdent "t1"
          ++ (" WHERE " ++ "(`a` = ?)"
              ++ (if ([] : List String).isEmpty then "" else " GROUP BY " ++ String.intercalate ", " ([] : List String))
              ++ (" HAVING " ++ "(`b` = ?)")
              ++ (if ([] : List String).isEmpty then "" else " ORDER BY " ++ String.intercalate ", " ([] : List String))
              ++ (match (none : Option Nat) with | some n => " LIMIT " ++ toString n | none => "")
              ++ (match (none : Option Nat) with | some n => " OFFSET " ++ toString n | none => "")),
          [Dbr.IFace.i64 2, Dbr.IFace.i64 3, Dbr.IFace.i64 4, Dbr.IFace.i64 3]
            ++ ([Dbr.IFace.i64 7] ++ [Dbr.IFace.i64 8]),
          Dbr.Select.mk ["`t1`.`store_id`"] "" "" (some (c5inner, "t1"))
            [⟨"a", [Dbr.ArgInt [7]], false⟩] [] [⟨"b", [Dbr.ArgInt [8]], false⟩]
            [] none none [] false) := by
  have hinner : Dbr.renderSelect c5inner
      = Except.ok ("SELECT `t3`.`store_id` FROM `sales_bestsellers_aggregated_daily` AS `t3` WHERE (`t3`.`store_id` IN ?) GROUP BY `t3`.`store_id` HAVING (COUNT(*)>?)",
          [Dbr.IFace.i64 2, Dbr.IFace.i64 3, Dbr.IFace.i64 4, Dbr.IFace.i64 3]) := by
    with_unfolding_all rfl
  refine ⟨hinner, ?_⟩
  exact claim_C5_subselect_args_order c5inner "t1" ["`t1`.`store_id`"]
    [⟨"a", [Dbr.ArgInt [7]], false⟩] [⟨"b", [Dbr.ArgInt [8]], false⟩] [] [] none none
    _ _ _ _ _ _ hinner (List.cons_ne_nil _ _) (by with_unfolding_all rfl)
    (List.cons_ne_nil _ _) (by with_unfolding_all rfl)

/-- C6: for a condition sequence with one balanced pair of parenthesis
markers in an arbitrary position (`A` conditions, `(`, `B` conditions, `)`,
`C` conditions — covering beginning, middle and end), the compiled clause
token stream is exactly: `A` joined per its flags, one AND before the open
marker when `A` is nonempty, the group `B` opened bare, the close marker,
then every `C` condition preceded by exactly one keyword — OR when its Or
flag is set, AND otherwise. The markers appear exactly where the caller
placed them; beyond the per-condition wrapping the stream carries exactly
one `(` and one `)` token; and the rendered WHERE/HAVING text and bound
values follow the same stream. -/
theorem claim_C6_parenthesis_and_keywords (A B C : List (String × Int × Bool))
    (hA : ∀ sp ∈ A, sp.1 ≠ "(" ∧ sp.1 ≠ ")")
    (hB : ∀ sp ∈ B, sp.1 ≠ "(" ∧ sp.1 ≠ ")")
    (hC : ∀ sp ∈ C, sp.1 ≠ "(" ∧ sp.1 ≠ ")")
    (_hBhead : ∀ sp ∈ B.head?, sp.2.2 = false) :
    Dbr.whereToksGo
        (A.map Dbr.mkIntCond ++ Dbr.ParenthesisOpen
          :: (B.map Dbr.mkIntCond ++ Dbr.ParenthesisClose :: C.map Dbr.mkIntCond)) false
      = Except.ok
          (Dbr.seg A false
            ++ ((if A.isEmpty then [Dbr.WTok.openP] else [Dbr.WTok.kwAnd, Dbr.WTok.openP])
              ++ (Dbr.seg B false ++ Dbr.WTok.closeP :: Dbr.seg C true)),
           (A ++ (B ++ C)).map (fun sp => Dbr.IFace.i64 sp.2.1))
    ∧ (Dbr.seg A false
        ++ ((if A.isEmpty then [Dbr.WTok.openP] else [Dbr.WTok.kwAnd, Dbr.WTok.openP])
          ++ (Dbr.seg B false ++ Dbr.WTok.closeP :: Dbr.seg C true))).count Dbr.WTok.openP = 1
    ∧ (Dbr.seg A false
        ++ ((if A.isEmpty then [Dbr.WTok.openP] else [Dbr.WTok.kwAnd, Dbr.WTok.openP])
          ++ (Dbr.seg B false ++ Dbr.WTok.closeP :: Dbr.seg C true))).count Dbr.WTok.closeP = 1
    ∧ Dbr.renderWhere
        (A.map Dbr.mkIntCond ++ Dbr.ParenthesisOpen
          :: (B.map Dbr.mkIntCond ++ Dbr.ParenthesisClose :: C.map Dbr.mkIntCond))
      = Except.ok
          (String.join ((Dbr.seg A false
            ++ ((if A.isEmpty then [Dbr.WTok.openP] else [Dbr.WTok.kwAnd, Dbr.WTok.openP])
              ++ (Dbr.seg B false ++ Dbr.WTok.closeP :: Dbr.seg C true))).map Dbr.WTok.text),
           (A ++ (B ++ C)).map (fun sp => Dbr.IFace.i64 sp.2.1)) := by
  have h1 : Dbr.whereToksGo
      (A.map Dbr.mkIntCond ++ Dbr.ParenthesisOpen
        :: (B.map Dbr.mkIntCond ++ Dbr.ParenthesisClose :: C.map Dbr.mkIntCond)) false
      = Except.ok
          (Dbr.seg A false
            ++ ((if A.isEmpty then [Dbr.WTok.openP] else [Dbr.WTok.kwAnd, Dbr.WTok.openP])
              ++ (Dbr.seg B false ++ Dbr.WTok.closeP :: Dbr.seg C true)),
           (A ++ (B ++ C)).map (fun sp => Dbr.IFace.i64 sp.2.1)) := by
    rw [Dbr.whereToksGo_conds A _ false hA, Bool.false_or,
      Dbr.whereToksGo_cons_open, Dbr.whereToksGo_conds B _ false hB, Bool.false_or,
      Dbr.whereToksGo_cons_close,
      show List.map Dbr.mkIntCond C = List.map Dbr.mkIntCond C ++ [] from
        (List.append_nil _).symm,
      Dbr.whereToksGo_conds C [] true hC]
    cases hAe : A.isEmpty <;> cases hBe : B.isEmpty <;>
      simp [hAe, hBe, Dbr.whereToksGo, List.append_assoc, List.map_append]
  refine ⟨h1, ?_, ?_, ?_⟩
  · cases hAe : A.isEmpty <;>
      simp [hAe, List.count_append, List.count_cons,
        Dbr.seg_count_marker A false Dbr.WTok.openP (Or.inl rfl),
        Dbr.seg_count_marker B false Dbr.WTok.openP (Or.inl rfl),
        Dbr.seg_count_marker C true Dbr.WTok.openP (Or.inl rfl)]
  · cases hAe : A.isEmpty <;>
      simp [hAe, List.count_append, List.count_cons,
        Dbr.seg_count_marker A false Dbr.WTok.closeP (Or.inr rfl),
        Dbr.seg_count_marker B false Dbr.WTok.closeP (Or.inr rfl),
        Dbr.seg_count_marker C true Dbr.WTok.closeP (Or.inr rfl)]
  · rw [Dbr.renderWhere, h1]

/-- C6 witness: the repository test's "middle of WHERE" shape —
`f AND ( d OR e ) AND p` with the Or flag on `e`. -/
theorem claim_C6_witness :
    Dbr.whereToksGo
        ([("f", 27, false)].map Dbr.mkIntCond ++ Dbr.ParenthesisOpen
          :: ([("d", 1, false), ("e", 99, true)].map Dbr.mkIntCond
            ++ Dbr.ParenthesisClose :: [("p", 3, false)].map Dbr.mkIntCond)) false
      = Except.ok
          (Dbr.seg [("f", 27, false)] false
            ++ ((if ([("f", 27, false)] : List (String × Int × Bool)).isEmpty
                then [Dbr.WTok.openP] else [Dbr.WTok.kwAnd, Dbr.WTok.openP])
              ++ (Dbr.seg [("d", 1, false), ("e", 99, true)] false
                ++ Dbr.WTok.closeP :: Dbr.seg [("p", 3, false)] true)),
           (([("f", 27, false)] ++ ([("d", 1, false), ("e", 99, true)] ++ [("p", 3, false)])
             : List (String × Int × Bool)).map (fun sp => Dbr.IFace.i64 sp.2.1)))
    ∧ String.join ((Dbr.seg [("f", 27, false)] false
        ++ ((if ([("f", 27, false)] : List (String × Int × Bool)).isEmpty
            then [Dbr.WTok.openP] else [Dbr.WTok.kwAnd, Dbr.WTok.openP])
          ++ (Dbr.seg [("d", 1, false), ("e", 99, true)] false
            ++ Dbr.WTok.closeP :: Dbr.seg [("p", 3, false)] true))).map Dbr.WTok.text)
      = "(`f` = ?) AND ((`d` = ?) OR (`e` = ?)) AND (`p` = ?)" := by
  constructor
  · exact (claim_C6_parenthesis_and_keywords [("f", 27, false)]
      [("d", 1, false), ("e", 99, true)] [("p", 3, false)]
      (by decide) (by decide) (by decide) (by decide)).1
  · with_unfolding_all rfl

/-- C7: a multi-value constructor called with zero values compiles to a
single `?` placeholder with zero bound values — the statement compiles
successfully to `... WHERE (qcol = ?)` with an empty bound list — and the
argument's operator is left exactly as requested: the empty argument
carries the default equality operator, and setting any operator stores
exactly that operator (no promotion, no rewrite to a different clause). -/
theorem claim_C7_empty_values_single_placeholder (cols : List String) (col tbl al : String)
    (hcol : Dbr.isIdent col = true) :
    Dbr.toSQL (Dbr.Select.mk cols tbl al none [⟨col, [Dbr.ArgInt []], false⟩]
        [] [] [] none none [] false)
      = Except.ok ("SELECT " ++ String.intercalate ", " cols ++ " FROM " ++ Dbr.quoteAs tbl al
          ++ (" WHERE " ++ ("(" ++ Dbr.quoteIdent col ++ " = ?" ++ ")")), [],
          Dbr.Select.mk cols tbl al none [⟨col, [Dbr.ArgInt []], false⟩]
            [] [] [] none none [] false)
    ∧ (Dbr.ArgInt []).operator = Dbr.OpEqual
    ∧ (∀ op : Nat, ((Dbr.ArgInt []).Operator op).operator = op) := by
  refine ⟨?_, rfl, fun op => rfl⟩
  have hop : Dbr.renderOp (Dbr.ArgInt []) = Except.ok (" = ?", []) := by
    with_unfolding_all rfl
  have hstep : Dbr.renderFrag ⟨col, [Dbr.ArgInt []], false⟩
      = if Dbr.isIdent col = true then
          (match Dbr.renderOp (Dbr.ArgInt []) with
            | Except.ok (opStr, as) =>
              Except.ok ("(" ++ Dbr.quoteIdent col ++ opStr ++ ")", as)
            | Except.error e => Except.error e)
        else Except.ok ("(" ++ col ++ ")", (Dbr.ArgInt []).toIFace []) := rfl
  have hfrag : Dbr.renderFrag ⟨col, [Dbr.ArgInt []], false⟩
      = Except.ok ("(" ++ Dbr.quoteIdent col ++ " = ?" ++ ")", []) := by
    rw [hstep, if_pos hcol, hop]
  have hw : Dbr.whereToksGo [⟨col, [Dbr.ArgInt []], false⟩] false
      = Except.ok ([Dbr.WTok.frag ("(" ++ Dbr.quoteIdent col ++ " = ?" ++ ")")], []) := by
    rw [Dbr.whereToksGo_cons_cond _ [] false (Dbr.isIdent_ne_open col hcol)
      (Dbr.isIdent_ne_close col hcol) _ _ hfrag]
    with_unfolding_all rfl
  have hrw : Dbr.renderWhere [⟨col, [Dbr.ArgInt []], false⟩]
      = Except.ok ("(" ++ Dbr.quoteIdent col ++ " = ?" ++ ")", []) := by
    rw [Dbr.renderWhere, hw]
    with_unfolding_all rfl
  have hshape : Dbr.renderTail (Dbr.Select.mk cols tbl al none
      [⟨col, [Dbr.ArgInt []], false⟩] [] [] [] none none [] false)
      = (match Dbr.renderWhere [⟨col, [Dbr.ArgInt []], false⟩] with
          | Except.error e => Except.error e
          | Except.ok (ws, wargs) =>
            Except.ok (" WHERE " ++ ws ++ "" ++ "" ++ "" ++ "" ++ "", wargs ++ [])) := rfl
  have htail : Dbr.renderTail (Dbr.Select.mk cols tbl al none
      [⟨col, [Dbr.ArgInt []], false⟩] [] [] [] none none [] false)
      = Except.ok (" WHERE " ++ ("(" ++ Dbr.quoteIdent col ++ " = ?" ++ ")"), []) := by
    rw [hshape, hrw]
    simp
  rw [Dbr.toSQL_no_listeners (Dbr.Select.mk cols tbl al none
      [⟨col, [Dbr.ArgInt []], false⟩] [] [] [] none none [] false) rfl,
    Dbr.renderSelect, htail]
  with_unfolding_all rfl

/-- C7 witness: the repository test's scenario `Eq a: ArgInt()` on
`SELECT a FROM b`. -/
theorem claim_C7_witness :
    Dbr.isIdent "a" = true
    ∧ Dbr.toSQL (Dbr.Select.mk ["a"] "b" "" none [⟨"a", [Dbr.ArgInt []], false⟩]
        [] [] [] none none [] false)
      = Except.ok ("SELECT " ++ String.intercalate ", " ["a"] ++ " FROM " ++ Dbr.quoteAs "b" ""
          ++ (" WHERE " ++ ("(" ++ Dbr.quoteIdent "a" ++ " = ?" ++ ")")), [],
          Dbr.Select.mk ["a"] "b" "" none [⟨"a", [Dbr.ArgInt []], false⟩]
            [] [] [] none none [] false) :=
  ⟨by decide, (claim_C7_empty_values_single_placeholder ["a"] "a" "b" "" (by decide)).1⟩

/-- C8 witness: a concrete listener-free statement compiles, and the
statement it leaves behind recompiles to the same SQL and arguments. -/
theorem claim_C8_witness :
    (Dbr.NewSelectFrom ["a", "b"] "c" "").listeners = []
    ∧ Dbr.toSQL ((Dbr.NewSelectFrom ["a", "b"] "c" "").withStopped false)
        = Except.ok ("SELECT a, b FROM `c`", [],
            (Dbr.NewSelectFrom ["a", "b"] "c" "").withStopped false) := by
  refine ⟨rfl, claim_C8_recompile_identical (Dbr.NewSelectFrom ["a", "b"] "c" "")
    "SELECT a, b FROM `c`" [] ((Dbr.NewSelectFrom ["a", "b"] "c" "").withStopped false)
    rfl ?_⟩
  with_unfolding_all rfl
